import Mathlib

/-!
Verification of the billiards physics engine (services/physicsEngine.ts,
services/vectorUtils.ts, constants.ts) against its natural-language
specification.

Numbers are modelled as exact real numbers; `Math.sqrt`, `Math.cos`,
`Math.sin` become `Real.sqrt`, `Real.cos`, `Real.sin`.  The engine source
contains two variants of the physics file; the variant carrying the
`thickness`/`angle` prediction metrics (the one cited by the claims'
primary line ranges) is the one embedded here.
-/

namespace Billiards

/-- 2D vector, `Vector2D` from types.ts. -/
@[ext]
structure Vec2 where
  x : ℝ
  y : ℝ

/-- `vecAdd` from vectorUtils.ts. -/
def vecAdd (v1 v2 : Vec2) : Vec2 := ⟨v1.x + v2.x, v1.y + v2.y⟩

/-- `vecSub` from vectorUtils.ts. -/
def vecSub (v1 v2 : Vec2) : Vec2 := ⟨v1.x - v2.x, v1.y - v2.y⟩

/-- `vecMul` from vectorUtils.ts. -/
def vecMul (v : Vec2) (s : ℝ) : Vec2 := ⟨v.x * s, v.y * s⟩

/-- `vecDiv` from vectorUtils.ts. -/
noncomputable def vecDiv (v : Vec2) (s : ℝ) : Vec2 := ⟨v.x / s, v.y / s⟩

/-- `vecMag` from vectorUtils.ts: `Math.sqrt(v.x * v.x + v.y * v.y)`. -/
noncomputable def vecMag (v : Vec2) : ℝ := Real.sqrt (v.x * v.x + v.y * v.y)

/-- `vecNormalize` from vectorUtils.ts: returns the zero vector when the
magnitude is zero (the division-by-zero guard), otherwise divides. -/
noncomputable def vecNormalize (v : Vec2) : Vec2 :=
  if vecMag v = 0 then ⟨0, 0⟩ else vecDiv v (vecMag v)

/-- `vecDot` from vectorUtils.ts. -/
def vecDot (v1 v2 : Vec2) : ℝ := v1.x * v2.x + v1.y * v2.y

/-- `vecDist` from vectorUtils.ts. -/
noncomputable def vecDist (v1 v2 : Vec2) : ℝ := vecMag (vecSub v1 v2)

/-! Constants from constants.ts. -/

def TABLE_WIDTH : ℝ := 800
def TABLE_HEIGHT : ℝ := 400
def BALL_RADIUS : ℝ := 12
def FRICTION : ℝ := 0.988
def SPIN_FRICTION : ℝ := 0.97
def WALL_BOUNCE : ℝ := 0.75
def BALL_BOUNCE : ℝ := 0.96
def MIN_VELOCITY : ℝ := 0.15
def SIDE_SPIN_CUSHION_FACTOR : ℝ := 0.4
def TOP_SPIN_FOLLOW_FACTOR : ℝ := 0.35

/-- `Ball` from types.ts, restricted to the fields the physics engine reads
or writes (`type` and `isPocketed` are consumed by rendering/rules only). -/
@[ext]
structure Ball where
  id : String
  pos : Vec2
  vel : Vec2
  radius : ℝ
  mass : ℝ
  sideSpin : ℝ
  topSpin : ℝ
  trace : List Vec2

/-- Discriminator of `CollisionEvent.type`. -/
inductive CEKind where
  | wall : CEKind
  | ball : CEKind
deriving DecidableEq

/-- `CollisionEvent` from physicsEngine.ts; the optional fields are `none`
when the source object literal omits them. -/
structure CollisionEvent where
  kind : CEKind
  intensity : ℝ
  pos : Vec2
  ballIds : Option (String × String)
  spinFactor : Option ℝ

/-- Result record of `PhysicsEngine.calculateCueImpact`. -/
structure CueImpact where
  velocity : Vec2
  sideSpin : ℝ
  topSpin : ℝ

/-- `PhysicsEngine.calculateCueImpact`.  The source computes the adjusted
launch direction as `(cos(atan2(d.y, d.x) + angleOffset), sin(... + ...))`;
by the angle-addition identities this equals the rotation of the unit
vector `d / |d|` by `angleOffset` (and for `d = (0,0)`, `atan2(0,0) = 0`,
so the rotated vector is the rotation of `(1,0)`), which is how it is
written here, avoiding a separate `atan2` primitive. -/
noncomputable def calculateCueImpact (direction : Vec2) (power : ℝ)
    (spinOffset : Vec2) : CueImpact :=
  let squirtFactor : ℝ := 0.12
  let angleOffset := -spinOffset.x * squirtFactor
  let u : Vec2 :=
    if direction.x = 0 ∧ direction.y = 0 then ⟨1, 0⟩ else vecNormalize direction
  let adjustedDirection : Vec2 :=
    ⟨u.x * Real.cos angleOffset - u.y * Real.sin angleOffset,
     u.x * Real.sin angleOffset + u.y * Real.cos angleOffset⟩
  let offCenterDist := Real.sqrt (spinOffset.x ^ 2 + spinOffset.y ^ 2)
  let velocityEfficiency := 1.0 - offCenterDist * 0.15
  let launchPower := power * velocityEfficiency
  let spinTransfer : ℝ := 0.55
  { velocity := vecMul adjustedDirection launchPower,
    sideSpin := spinOffset.x * power * spinTransfer,
    topSpin := -spinOffset.y * power * spinTransfer }

/-- Output of one cushion-axis block inside `PhysicsEngine.update`:
the ball's position and velocity after the block, the accumulated
`wallIntensity`, the overridden `collisionPos` coordinate for this axis,
and whether this axis was hit. -/
structure CushionOut where
  pos : Vec2
  vel : Vec2
  intensity : ℝ
  cpos : ℝ
  hit : Bool

/-- The x-axis cushion block of `PhysicsEngine.update`.  `sideSpin1` is the
ball's (already decayed) side spin; note the source reads
`Math.abs(ball.vel.x)` for the spin-deflection term after the reflection
`ball.vel.x *= -WALL_BOUNCE` has been applied. -/
noncomputable def cushionX (radius sideSpin1 : ℝ) (pos0 : Vec2) (vel1 : Vec2) :
    CushionOut :=
  if pos0.x - radius < 0 then
    let vx := vel1.x * -WALL_BOUNCE
    { pos := ⟨radius, pos0.y⟩,
      vel := ⟨vx, vel1.y + sideSpin1 * |vx| * SIDE_SPIN_CUSHION_FACTOR⟩,
      intensity := |vel1.x|, cpos := 0, hit := true }
  else if TABLE_WIDTH < pos0.x + radius then
    let vx := vel1.x * -WALL_BOUNCE
    { pos := ⟨TABLE_WIDTH - radius, pos0.y⟩,
      vel := ⟨vx, vel1.y - sideSpin1 * |vx| * SIDE_SPIN_CUSHION_FACTOR⟩,
      intensity := |vel1.x|, cpos := TABLE_WIDTH, hit := true }
  else
    { pos := pos0, vel := vel1, intensity := 0, cpos := pos0.x, hit := false }

/-- The y-axis cushion block of `PhysicsEngine.update`; `wi1` is the
`wallIntensity` accumulated by the x block, maximized with the y impact
speed read before the y reflection. -/
noncomputable def cushionY (radius sideSpin1 wi1 : ℝ) (pos1 : Vec2)
    (vel2 : Vec2) : CushionOut :=
  if pos1.y - radius < 0 then
    let vy := vel2.y * -WALL_BOUNCE
    { pos := ⟨pos1.x, radius⟩,
      vel := ⟨vel2.x - sideSpin1 * |vy| * SIDE_SPIN_CUSHION_FACTOR, vy⟩,
      intensity := max wi1 |vel2.y|, cpos := 0, hit := true }
  else if TABLE_HEIGHT < pos1.y + radius then
    let vy := vel2.y * -WALL_BOUNCE
    { pos := ⟨pos1.x, TABLE_HEIGHT - radius⟩,
      vel := ⟨vel2.x + sideSpin1 * |vy| * SIDE_SPIN_CUSHION_FACTOR, vy⟩,
      intensity := max wi1 |vel2.y|, cpos := TABLE_HEIGHT, hit := true }
  else
    { pos := pos1, vel := vel2, intensity := wi1, cpos := pos1.y, hit := false }

/-- The per-ball body of the `balls.forEach` in `PhysicsEngine.update`:
spin-driven push, position integration, friction and spin decay, bounded
trace update, cushion collisions, and rest forcing for slow balls.
Returns the updated ball and the wall `CollisionEvent`, if one was
emitted. -/
noncomputable def moveBall (ball : Ball) : Ball × Option CollisionEvent :=
  let speed := vecMag ball.vel
  if MIN_VELOCITY < speed then
    let moveDir := vecNormalize ball.vel
    let spinPush := vecMul moveDir (ball.topSpin * 0.015)
    let vel0 := vecAdd ball.vel spinPush
    let pos0 := vecAdd ball.pos vel0
    let vel1 := vecMul vel0 FRICTION
    let topSpin1 := ball.topSpin * SPIN_FRICTION
    let sideSpin1 := ball.sideSpin * SPIN_FRICTION
    let trace0 := ball.trace ++ [pos0]
    let trace1 := if 20 < trace0.length then trace0.tail else trace0
    let xr := cushionX ball.radius sideSpin1 pos0 vel1
    let yr := cushionY ball.radius sideSpin1 xr.intensity xr.pos xr.vel
    let ev : Option CollisionEvent :=
      if xr.hit || yr.hit then
        some { kind := CEKind.wall, intensity := yr.intensity / 8,
               pos := ⟨xr.cpos, yr.cpos⟩, ballIds := none, spinFactor := none }
      else none
    ({ ball with pos := yr.pos, vel := yr.vel, sideSpin := sideSpin1,
                 topSpin := topSpin1, trace := trace1 }, ev)
  else
    ({ ball with vel := ⟨0, 0⟩, topSpin := 0, sideSpin := 0 }, none)

/-- `PhysicsEngine.resolveCollision`.  The source also computes a tangent
decomposition (`tangent`, `dotTangent`, `tangentVel`) inside the top-spin
branch but never uses it; only the `followForce` term reaches the output. -/
noncomputable def resolveCollision (b1 b2 : Ball) : Ball × Ball :=
  let collisionNorm := vecNormalize (vecSub b2.pos b1.pos)
  let relativeVel := vecSub b1.vel b2.vel
  let speed := vecDot relativeVel collisionNorm
  if speed < 0 then (b1, b2)
  else
    let impulse := 2 * speed / (b1.mass + b2.mass) * BALL_BOUNCE
    let v1Post := vecSub b1.vel (vecMul collisionNorm (impulse * b2.mass))
    let v2Post := vecAdd b2.vel (vecMul collisionNorm (impulse * b1.mass))
    let v1New :=
      if 0.05 < |b1.topSpin| then
        let followForce :=
          vecMul collisionNorm (-b1.topSpin * speed * TOP_SPIN_FOLLOW_FACTOR * 0.5)
        vecAdd v1Post followForce
      else v1Post
    let overlap := b1.radius + b2.radius - vecDist b1.pos b2.pos
    let posPair :=
      if 0 < overlap then
        let correction := vecMul collisionNorm (overlap / 2)
        (vecSub b1.pos correction, vecAdd b2.pos correction)
      else (b1.pos, b2.pos)
    ({ b1 with vel := v1New, pos := posPair.1 },
     { b2 with vel := v2Post, pos := posPair.2 })

/-- Inner `j` loop of the pairwise collision scan in `PhysicsEngine.update`,
for a fixed first ball `b1` against the balls after it, threading the
in-place mutations of the source's ball array: returns the final state of
`b1`, the final states of the later balls, the collision-pair keys added,
and the ball events emitted. -/
noncomputable def sweep (b1 : Ball) : List Ball →
    Ball × List Ball × List String × List CollisionEvent
  | [] => (b1, [], [], [])
  | b2 :: rest =>
    if vecDist b1.pos b2.pos < b1.radius + b2.radius then
      if 0 < vecDot (vecSub b1.vel b2.vel) (vecNormalize (vecSub b2.pos b1.pos)) then
        let ev : CollisionEvent :=
          { kind := CEKind.ball,
            intensity :=
              vecDot (vecSub b1.vel b2.vel) (vecNormalize (vecSub b2.pos b1.pos)) / 8,
            pos := vecAdd b1.pos
              (vecMul (vecNormalize (vecSub b2.pos b1.pos)) b1.radius),
            ballIds := some (b1.id, b2.id), spinFactor := none }
        let rb := resolveCollision b1 b2
        let rest' := sweep rb.1 rest
        (rest'.1, rb.2 :: rest'.2.1,
         (b1.id ++ "-" ++ b2.id) :: rest'.2.2.1, ev :: rest'.2.2.2)
      else
        let rest' := sweep b1 rest
        (rest'.1, b2 :: rest'.2.1, rest'.2.2.1, rest'.2.2.2)
    else
      let rest' := sweep b1 rest
      (rest'.1, b2 :: rest'.2.1, rest'.2.2.1, rest'.2.2.2)

/-- The inner sweep touches each later ball exactly once, so it preserves
the length of the rest of the array. -/
theorem sweep_length (b1 : Ball) (l : List Ball) :
    (sweep b1 l).2.1.length = l.length := by
  induction l generalizing b1 with
  | nil => simp [sweep]
  | cons b2 rest ih =>
    simp only [sweep]
    split_ifs <;> simp [ih]

/-- The all-pairs `O(n²)` collision scan of `PhysicsEngine.update` (outer
`i` loop): equivalent to the source's in-place indexed double loop, since
each outer iteration works on the array state left by the previous one. -/
noncomputable def collidePhase : List Ball →
    List Ball × List String × List CollisionEvent
  | [] => ([], [], [])
  | b1 :: rest =>
    let s := sweep b1 rest
    let r := collidePhase s.2.1
    (s.1 :: r.1, s.2.2.1 ++ r.2.1, s.2.2.2 ++ r.2.2)
termination_by l => l.length
decreasing_by simp [sweep_length]

/-- Result record of `PhysicsEngine.update`.  The source's `Set<string>` of
collision keys is modelled as the list of keys in insertion order. -/
structure StepResult where
  balls : List Ball
  isMoving : Bool
  collisions : List String
  events : List CollisionEvent

/-- `PhysicsEngine.update`: per-ball motion phase (emitting wall events in
ball order), then the pairwise collision scan (emitting ball events);
`isMoving` is true iff some ball entered the tick above the minimum
velocity. -/
noncomputable def update (balls : List Ball) : StepResult :=
  let moved := balls.map moveBall
  let movedBalls := moved.map Prod.fst
  let wallEvents := moved.filterMap Prod.snd
  let c := collidePhase movedBalls
  { balls := c.1,
    isMoving := balls.any fun b => decide (MIN_VELOCITY < vecMag b.vel),
    collisions := c.2.1,
    events := wallEvents ++ c.2.2 }

/-- State threaded through the predictive simulator's main loop:
`simPos`, `simVel`, `simSide`, `simTop`. -/
structure SimState where
  pos : Vec2
  vel : Vec2
  side : ℝ
  top : ℝ

/-- One free-flight step of the predictive loop in `PhysicsEngine.predict`:
position integration, friction, spin decay, and the two (non-clamping) wall
reflection blocks, which read `Math.abs(simVel.x)` (resp. `.y`) after the
reflection has been applied.  Also returns whether each wall block fired
(each firing appends the new position to the path). -/
noncomputable def predFreeStep (st : SimState) : SimState × Bool × Bool :=
  let pos1 := vecAdd st.pos st.vel
  let vel1 := vecMul st.vel FRICTION
  let side1 := st.side * SPIN_FRICTION
  let top1 := st.top * SPIN_FRICTION
  let hitX : Prop := pos1.x < BALL_RADIUS ∨ TABLE_WIDTH - BALL_RADIUS < pos1.x
  let vel2 :=
    if pos1.x < BALL_RADIUS ∨ TABLE_WIDTH - BALL_RADIUS < pos1.x then
      let vx := vel1.x * -WALL_BOUNCE
      (⟨vx, vel1.y + (if pos1.x < BALL_RADIUS then 1 else -1) * side1 * |vx| *
          SIDE_SPIN_CUSHION_FACTOR⟩ : Vec2)
    else vel1
  let hitY : Prop := pos1.y < BALL_RADIUS ∨ TABLE_HEIGHT - BALL_RADIUS < pos1.y
  let vel3 :=
    if pos1.y < BALL_RADIUS ∨ TABLE_HEIGHT - BALL_RADIUS < pos1.y then
      let vy := vel2.y * -WALL_BOUNCE
      (⟨vel2.x + (if pos1.y < BALL_RADIUS then -1 else 1) * side1 * |vy| *
          SIDE_SPIN_CUSHION_FACTOR, vy⟩ : Vec2)
    else vel2
  (⟨pos1, vel3, side1, top1⟩, decide hitX, decide hitY)

/-- Result record of `PhysicsEngine.predict`; the optional fields are
present exactly when the loop exits through the first-contact branch. -/
structure PredictResult where
  path : List Vec2
  targetPath : Option (List Vec2)
  ghostBall : Option Vec2
  thickness : Option ℝ
  angle : Option ℝ

/-- The struck ball's forward simulation inside `PhysicsEngine.predict`
(the `j < 60` loop): no cushions, no early exit, a waypoint every 10th
index. -/
noncomputable def targetGo : ℕ → ℕ → Vec2 → Vec2 → List Vec2 → List Vec2
  | 0, _, _, _, acc => acc
  | fuel + 1, j, tPos, tVel, acc =>
    let tPos1 := vecAdd tPos tVel
    let tVel1 := vecMul tVel FRICTION
    let acc1 := if j % 10 = 0 then acc ++ [tPos1] else acc
    targetGo fuel (j + 1) tPos1 tVel1 acc1

/-- The cue ball's deflected-path simulation inside `PhysicsEngine.predict`
(the `k < 150` loop): a progressively ramping curve force along the
collision normal, then integration, friction, a waypoint every 10th index,
and an early exit below the minimum velocity. -/
noncomputable def deflGo (n : Vec2) (top : ℝ) :
    ℕ → ℕ → Vec2 → Vec2 → List Vec2 → List Vec2
  | 0, _, _, _, path => path
  | fuel + 1, k, pos, vel, path =>
    let curveStrength := top * 0.08 * ((k : ℝ) / 150)
    let vel1 := vecAdd vel (vecMul n (-curveStrength))
    let pos1 := vecAdd pos vel1
    let vel2 := vecMul vel1 FRICTION
    let path1 := if k % 10 = 0 then path ++ [pos1] else path
    if vecMag vel2 < MIN_VELOCITY then path1
    else deflGo n top fuel (k + 1) pos1 vel2 path1

/-- The first-contact exit of `PhysicsEngine.predict`: ghost ball, cut
thickness and angle, the struck ball's path, and the cue ball's deflected
path appended to the accumulated path. -/
noncomputable def contactResult (cueMass : ℝ) (other : Ball) (st : SimState)
    (path : List Vec2) : PredictResult :=
  let collisionNorm := vecNormalize (vecSub other.pos st.pos)
  let speed := vecDot st.vel collisionNorm
  let thickness := |vecDot (vecNormalize st.vel) collisionNorm|
  let ghost := vecSub other.pos (vecMul collisionNorm (BALL_RADIUS * 2))
  let targetPath :=
    if 0 < speed then
      targetGo 60 0 other.pos
        (vecMul collisionNorm (2 * speed / (cueMass + other.mass) * BALL_BOUNCE))
        [other.pos]
    else [other.pos]
  let deflectedVel :=
    vecSub st.vel
      (vecMul collisionNorm (2 * speed / (cueMass + other.mass) * BALL_BOUNCE))
  let path2 := deflGo collisionNorm st.top 150 0 st.pos deflectedVel path
  { path := path2, ghostBall := some ghost, targetPath := some targetPath,
    thickness := some thickness,
    angle := some (Real.arccos thickness * (180 / Real.pi)) }

/-- The `for (const other of otherBalls)` scan of `PhysicsEngine.predict`:
the first other ball within two radii of the simulated position triggers
the first-contact exit. -/
noncomputable def scanBalls (cueMass : ℝ) (st : SimState) (path : List Vec2) :
    List Ball → Option PredictResult
  | [] => none
  | other :: rest =>
    if vecDist st.pos other.pos < BALL_RADIUS * 2 then
      some (contactResult cueMass other st path)
    else scanBalls cueMass st path rest

/-- The main `i < 400` loop of `PhysicsEngine.predict`: free-flight step
(pushing a waypoint for each wall block that fired), first-contact scan,
stride-10 waypoint sampling, and the minimum-velocity exit. -/
noncomputable def predGo (cueMass : ℝ) (others : List Ball) :
    ℕ → ℕ → SimState → List Vec2 → PredictResult
  | 0, _, _, path =>
    { path := path, targetPath := none, ghostBall := none,
      thickness := none, angle := none }
  | fuel + 1, i, st, path =>
    let s := predFreeStep st
    let st1 := s.1
    let path1 := if s.2.1 then path ++ [st1.pos] else path
    let path2 := if s.2.2 then path1 ++ [st1.pos] else path1
    match scanBalls cueMass st1 path2 others with
    | some r => r
    | none =>
      let path3 := if i % 10 = 0 then path2 ++ [st1.pos] else path2
      if vecMag st1.vel < MIN_VELOCITY then
        { path := path3, targetPath := none, ghostBall := none,
          thickness := none, angle := none }
      else predGo cueMass others fuel (i + 1) st1 path3

/-- `PhysicsEngine.predict`: run the cue-impact model once, then the main
loop with a hard cap of 400 iterations, starting the path at the cue
ball's position. -/
noncomputable def predict (cueBall : Ball) (otherBalls : List Ball)
    (direction : Vec2) (power : ℝ) (spinOffset : Vec2) : PredictResult :=
  let impact := calculateCueImpact direction power spinOffset
  predGo cueBall.mass otherBalls 400 0
    ⟨cueBall.pos, impact.velocity, impact.sideSpin, impact.topSpin⟩
    [cueBall.pos]

/-- Real shot execution (`executeShot` in the app component): the cue ball
takes the velocity and spins produced by `calculateCueImpact`; the table is
then advanced by repeated `update` ticks. -/
noncomputable def applyImpact (b : Ball) (direction : Vec2) (power : ℝ)
    (spinOffset : Vec2) : Ball :=
  let impact := calculateCueImpact direction power spinOffset
  { b with vel := impact.velocity, sideSpin := impact.sideSpin,
           topSpin := impact.topSpin }

/-- `n` consecutive ticks of the step simulator. -/
noncomputable def iterUpdate : ℕ → List Ball → List Ball
  | 0, balls => balls
  | n + 1, balls => (update (iterUpdate n balls)).balls

/-! Basic facts about the vector utilities. -/

theorem vecMag_zero : vecMag ⟨0, 0⟩ = 0 := by
  simp [vecMag]

theorem vecMag_horiz (x y : ℝ) (hy : y = 0) : vecMag ⟨x, y⟩ = |x| := by
  subst hy
  rw [vecMag, show x * x + 0 * 0 = x ^ 2 by ring, Real.sqrt_sq_eq_abs]

theorem vecMag_smul (v : Vec2) (k : ℝ) : vecMag (vecMul v k) = |k| * vecMag v := by
  rw [vecMag, vecMul, vecMag]
  have : v.x * k * (v.x * k) + v.y * k * (v.y * k) =
      k ^ 2 * (v.x * v.x + v.y * v.y) := by ring
  rw [this, Real.sqrt_mul (sq_nonneg k), Real.sqrt_sq_eq_abs]

theorem vecNormalize_xPos (x y : ℝ) (hx : 0 < x) (hy : y = 0) :
    vecNormalize ⟨x, y⟩ = ⟨1, 0⟩ := by
  subst hy
  have hm : vecMag ⟨x, 0⟩ = x := by rw [vecMag_horiz x 0 rfl, abs_of_pos hx]
  rw [vecNormalize, hm, if_neg hx.ne', vecDiv]
  exact Vec2.ext (div_self hx.ne') (zero_div x)

theorem vecDist_horiz (a b y : ℝ) : vecDist ⟨a, y⟩ ⟨b, y⟩ = |a - b| := by
  rw [vecDist, vecSub]
  exact vecMag_horiz _ _ (sub_self y)

theorem vecMag_nonneg (v : Vec2) : 0 ≤ vecMag v := Real.sqrt_nonneg _

/-- The squared magnitude of a normalized nonzero vector is 1. -/
theorem vecDot_normalize_self (v : Vec2) (h : vecMag v ≠ 0) :
    vecDot (vecNormalize v) (vecNormalize v) = 1 := by
  rw [vecNormalize, if_neg h, vecDiv, vecDot]
  have hnn : 0 ≤ v.x * v.x + v.y * v.y := by
    nlinarith [sq_nonneg v.x, sq_nonneg v.y]
  have hs : v.x * v.x + v.y * v.y = vecMag v * vecMag v := by
    rw [vecMag]
    exact (Real.mul_self_sqrt hnn).symm
  field_simp
  linarith [hs]

/-- A nonzero-magnitude vector, normalized, is the vector divided by its
magnitude. -/
theorem vecNormalize_of_ne (v : Vec2) (h : vecMag v ≠ 0) :
    vecNormalize v = vecDiv v (vecMag v) := by
  rw [vecNormalize, if_neg h]

/-! Branch lemmas for the embedded operations. -/

theorem update_balls_def (balls : List Ball) :
    (update balls).balls = (collidePhase ((balls.map moveBall).map Prod.fst)).1 := rfl

theorem update_collisions_def (balls : List Ball) :
    (update balls).collisions =
      (collidePhase ((balls.map moveBall).map Prod.fst)).2.1 := rfl

theorem update_events_def (balls : List Ball) :
    (update balls).events = (balls.map moveBall).filterMap Prod.snd ++
      (collidePhase ((balls.map moveBall).map Prod.fst)).2.2 := rfl

theorem update_isMoving_def (balls : List Ball) :
    (update balls).isMoving =
      balls.any fun b => decide (MIN_VELOCITY < vecMag b.vel) := rfl

theorem cushionX_miss (r s : ℝ) (p v : Vec2) (h1 : ¬(p.x - r < 0))
    (h2 : ¬(TABLE_WIDTH < p.x + r)) :
    cushionX r s p v = ⟨p, v, 0, p.x, false⟩ := by
  rw [cushionX, if_neg h1, if_neg h2]

theorem cushionY_miss (r s wi : ℝ) (p v : Vec2) (h1 : ¬(p.y - r < 0))
    (h2 : ¬(TABLE_HEIGHT < p.y + r)) :
    cushionY r s wi p v = ⟨p, v, wi, p.y, false⟩ := by
  rw [cushionY, if_neg h1, if_neg h2]

theorem cushionX_low (r s : ℝ) (p v : Vec2) (h : p.x - r < 0) :
    cushionX r s p v =
      ⟨⟨r, p.y⟩, ⟨v.x * -WALL_BOUNCE,
        v.y + s * |v.x * -WALL_BOUNCE| * SIDE_SPIN_CUSHION_FACTOR⟩,
       |v.x|, 0, true⟩ := by
  rw [cushionX, if_pos h]

theorem cushionY_low (r s wi : ℝ) (p v : Vec2) (h : p.y - r < 0) :
    cushionY r s wi p v =
      ⟨⟨p.x, r⟩, ⟨v.x - s * |v.y * -WALL_BOUNCE| * SIDE_SPIN_CUSHION_FACTOR,
        v.y * -WALL_BOUNCE⟩,
       max wi |v.y|, 0, true⟩ := by
  rw [cushionY, if_pos h]

/-- The per-ball phase for a fast ball with zero top spin that crosses no
cushion: plain Euler integration with friction and spin decay. -/
theorem moveBall_noWall (b : Ball) (hfast : MIN_VELOCITY < vecMag b.vel)
    (htop : b.topSpin = 0)
    (hx1 : ¬((vecAdd b.pos b.vel).x - b.radius < 0))
    (hx2 : ¬(TABLE_WIDTH < (vecAdd b.pos b.vel).x + b.radius))
    (hy1 : ¬((vecAdd b.pos b.vel).y - b.radius < 0))
    (hy2 : ¬(TABLE_HEIGHT < (vecAdd b.pos b.vel).y + b.radius)) :
    moveBall b =
      ({ b with pos := vecAdd b.pos b.vel, vel := vecMul b.vel FRICTION,
                sideSpin := b.sideSpin * SPIN_FRICTION, topSpin := 0,
                trace := (if 20 < (b.trace ++ [vecAdd b.pos b.vel]).length then
                    (b.trace ++ [vecAdd b.pos b.vel]).tail
                  else b.trace ++ [vecAdd b.pos b.vel]) }, none) := by
  have hv0 : vecAdd b.vel (vecMul (vecNormalize b.vel) (b.topSpin * 0.015)) = b.vel := by
    rw [htop]
    simp [vecMul, vecAdd]
  simp only [moveBall, if_pos hfast, hv0]
  rw [cushionX_miss b.radius (b.sideSpin * SPIN_FRICTION) _ _ hx1 hx2]
  dsimp only
  rw [cushionY_miss b.radius (b.sideSpin * SPIN_FRICTION) 0 _ _ hy1 hy2]
  dsimp only
  simp [htop]

/-- A sweep that produced no collision keys left every ball unchanged. -/
theorem sweep_no_keys (b1 : Ball) (l : List Ball)
    (h : (sweep b1 l).2.2.1 = []) :
    (sweep b1 l).1 = b1 ∧ (sweep b1 l).2.1 = l := by
  induction l generalizing b1 with
  | nil => simp [sweep]
  | cons b2 rest ih =>
    simp only [sweep] at h ⊢
    by_cases h1 : vecDist b1.pos b2.pos < b1.radius + b2.radius
    · by_cases h2 : 0 < vecDot (vecSub b1.vel b2.vel) (vecNormalize (vecSub b2.pos b1.pos))
      · rw [if_pos h1, if_pos h2] at h
        simp at h
      · rw [if_pos h1, if_neg h2] at h ⊢
        obtain ⟨ha, hb⟩ := ih b1 h
        simp [ha, hb]
    · rw [if_neg h1] at h ⊢
      obtain ⟨ha, hb⟩ := ih b1 h
      simp [ha, hb]

/-- A collision phase that produced no keys left the ball list unchanged. -/
theorem collidePhase_no_keys (l : List Ball)
    (h : (collidePhase l).2.1 = []) : (collidePhase l).1 = l := by
  induction l with
  | nil => rw [collidePhase]
  | cons b1 rest ih =>
    simp only [collidePhase] at h ⊢
    obtain ⟨hs, hr⟩ := List.append_eq_nil.1 h
    obtain ⟨ha, hb⟩ := sweep_no_keys b1 rest hs
    rw [hb] at hr ⊢
    rw [ha, ih hr]

theorem collidePhase_singleton (b : Ball) : collidePhase [b] = ([b], [], []) := by
  simp [collidePhase, sweep]

/-! C9: zero-vector normalization guard. -/

/-- C9: for every input vector whose magnitude is zero, `vecNormalize`
returns the zero vector rather than dividing by zero; the division branch
is only taken for nonzero magnitude. -/
theorem C9_normalize_zero_guard (v : Vec2) (h : vecMag v = 0) :
    vecNormalize v = ⟨0, 0⟩ := by
  rw [vecNormalize, if_pos h]

theorem C9_normalize_zero_guard_witness :
    vecMag ⟨0, 0⟩ = 0 ∧ vecNormalize ⟨0, 0⟩ = ⟨0, 0⟩ :=
  ⟨vecMag_zero, C9_normalize_zero_guard ⟨0, 0⟩ vecMag_zero⟩

/-! C10: the all-rest configuration is a fixed point. -/

/-- A ball at or below the minimum velocity takes the rest branch of the
per-ball phase: zero velocity and spins, position, trace and the rest of
the record untouched, no wall event. -/
theorem moveBall_rest (b : Ball) (h : vecMag b.vel ≤ MIN_VELOCITY) :
    moveBall b = ({ b with vel := ⟨0, 0⟩, sideSpin := 0, topSpin := 0 }, none) := by
  rw [moveBall, if_neg (not_lt.2 h)]

/-- The inner collision sweep does nothing when every ball is at rest:
overlapping pairs have zero relative velocity, which fails the
approaching-pair guard. -/
theorem sweep_rest (b1 : Ball) (l : List Ball) (h1 : b1.vel = ⟨0, 0⟩)
    (h : ∀ b ∈ l, b.vel = ⟨0, 0⟩) : sweep b1 l = (b1, l, [], []) := by
  induction l with
  | nil => rw [sweep]
  | cons b2 rest ih =>
    have h2 : b2.vel = ⟨0, 0⟩ := h b2 (List.mem_cons_self _ _)
    have hrest : ∀ b ∈ rest, b.vel = ⟨0, 0⟩ := fun b hb => h b (List.mem_cons_of_mem _ hb)
    have hspeed : vecDot (vecSub b1.vel b2.vel)
        (vecNormalize (vecSub b2.pos b1.pos)) = 0 := by
      rw [h1, h2]
      simp [vecSub, vecDot]
    rw [sweep, hspeed]
    rw [if_neg (lt_irrefl 0)]
    split_ifs <;> rw [ih hrest]

/-- The pairwise collision scan does nothing when every ball is at rest. -/
theorem collidePhase_rest (l : List Ball) (h : ∀ b ∈ l, b.vel = ⟨0, 0⟩) :
    collidePhase l = (l, [], []) := by
  induction l with
  | nil => rw [collidePhase]
  | cons b1 rest ih =>
    have h1 : b1.vel = ⟨0, 0⟩ := h b1 (List.mem_cons_self _ _)
    have hrest : ∀ b ∈ rest, b.vel = ⟨0, 0⟩ := fun b hb => h b (List.mem_cons_of_mem _ hb)
    rw [collidePhase, sweep_rest b1 rest h1 hrest]
    simp [ih hrest]

/-- C10 (implicit): if every ball enters the tick with velocity magnitude
at most `MIN_VELOCITY`, one `update` returns `isMoving = false`, leaves
every position unchanged while zeroing every velocity and both spins,
emits no events, and returns an empty collided-pair set — even when balls
overlap, since zero relative velocity fails the approaching-pair guard. -/
theorem C10_all_rest_fixpoint (balls : List Ball)
    (h : ∀ b ∈ balls, vecMag b.vel ≤ MIN_VELOCITY) :
    (update balls).isMoving = false ∧
    (update balls).balls =
      balls.map (fun b => { b with vel := ⟨0, 0⟩, sideSpin := 0, topSpin := 0 }) ∧
    (update balls).collisions = [] ∧
    (update balls).events = [] := by
  have hmove : ∀ b ∈ balls,
      moveBall b = ({ b with vel := ⟨0, 0⟩, sideSpin := 0, topSpin := 0 }, none) :=
    fun b hb => moveBall_rest b (h b hb)
  have hmap : balls.map moveBall = balls.map
      (fun b => (({ b with vel := ⟨0, 0⟩, sideSpin := 0, topSpin := 0 } : Ball), none)) :=
    List.map_congr_left hmove
  have hrest : ∀ b ∈ (balls.map moveBall).map Prod.fst, b.vel = ⟨0, 0⟩ := by
    intro b hb
    rw [hmap, List.map_map] at hb
    obtain ⟨a, _, rfl⟩ := List.mem_map.1 hb
    rfl
  refine ⟨?_, ?_, ?_, ?_⟩
  · rw [update]
    simp only [List.any_eq_false, decide_eq_true_eq, not_lt]
    exact h
  · rw [update]
    simp only
    rw [collidePhase_rest _ hrest, hmap, List.map_map]
    rfl
  · rw [update]
    simp only
    rw [collidePhase_rest _ hrest]
  · rw [update]
    simp only
    rw [collidePhase_rest _ hrest, hmap]
    simp [List.filterMap_map]

def w10a : Ball := ⟨"a", ⟨300, 300⟩, ⟨0, 0⟩, 12, 1, 0, 0, []⟩
def w10b : Ball := ⟨"b", ⟨306, 300⟩, ⟨0, 0⟩, 12, 1, 0, 0, []⟩

theorem C10_all_rest_fixpoint_witness :
    (∀ b ∈ [w10a, w10b], vecMag b.vel ≤ MIN_VELOCITY) ∧
    (update [w10a, w10b]).isMoving = false ∧
    (update [w10a, w10b]).balls = [w10a, w10b] ∧
    (update [w10a, w10b]).collisions = [] ∧
    (update [w10a, w10b]).events = [] := by
  have h : ∀ b ∈ [w10a, w10b], vecMag b.vel ≤ MIN_VELOCITY := by
    intro b hb
    have hv : b.vel = ⟨0, 0⟩ := by
      rcases List.mem_pair.1 hb with rfl | rfl <;> rfl
    rw [hv, vecMag_zero, MIN_VELOCITY]
    norm_num
  obtain ⟨h1, h2, h3, h4⟩ := C10_all_rest_fixpoint [w10a, w10b] h
  refine ⟨h, h1, ?_, h3, h4⟩
  rw [h2]
  rfl

/-! C3: rest-state forcing. -/

def c3ball : Ball := ⟨"c", ⟨100, 200⟩, ⟨0.151, 0⟩, 12, 1, 0, 0, []⟩

def c3ballAfter : Ball :=
  ⟨"c", ⟨100.151, 200⟩, ⟨0.149188, 0⟩, 12, 1, 0, 0, [⟨100.151, 200⟩]⟩

/-- C3 counterexample: a lone ball entering the tick at speed 0.151 (just
above `MIN_VELOCITY` = 0.15) leaves `update` at speed 0.151 · 0.988 =
0.149188 < `MIN_VELOCITY` with a nonzero velocity: a ball whose speed
drops below the threshold through this step's friction decay is *not*
forced to rest on the same step. -/
theorem C3_same_step_cex :
    (update [c3ball]).balls = [c3ballAfter] ∧
    vecMag c3ballAfter.vel < MIN_VELOCITY ∧ c3ballAfter.vel ≠ ⟨0, 0⟩ := by
  have hmag : vecMag c3ball.vel = 0.151 := by
    rw [show c3ball.vel = ⟨0.151, 0⟩ from rfl, vecMag_horiz 0.151 0 rfl]
    norm_num
  have hfast : MIN_VELOCITY < vecMag c3ball.vel := by
    rw [hmag, MIN_VELOCITY]
    norm_num
  have hpv : vecAdd c3ball.pos c3ball.vel = ⟨100.151, 200⟩ := by
    norm_num [c3ball, vecAdd]
  have hmove : moveBall c3ball = (c3ballAfter, none) := by
    rw [moveBall_noWall c3ball hfast rfl
      (by rw [hpv]; norm_num [c3ball])
      (by rw [hpv]; norm_num [c3ball, TABLE_WIDTH])
      (by rw [hpv]; norm_num [c3ball])
      (by rw [hpv]; norm_num [c3ball, TABLE_HEIGHT])]
    norm_num [c3ball, c3ballAfter, vecAdd, vecMul, FRICTION, SPIN_FRICTION]
  refine ⟨?_, ?_, ?_⟩
  · rw [update_balls_def, List.map_cons, List.map_nil, hmove]
    simp [collidePhase_singleton]
  · rw [show c3ballAfter.vel = ⟨0.149188, 0⟩ from rfl, vecMag_horiz _ _ rfl,
      MIN_VELOCITY]
    norm_num [abs_lt]
  · rw [show c3ballAfter.vel = ⟨0.149188, 0⟩ from rfl]
    norm_num [Vec2.mk.injEq]

/-- C3 amended: the rest forcing reads the *pre-step* speed.  Every ball
that enters the tick at or below `MIN_VELOCITY` is forced to exactly zero
velocity and zero spins by the per-ball phase, and when the tick resolves
no collision that zeroed state is its final state for the tick; a ball
whose speed only falls below the threshold through this step's friction
decay keeps its small nonzero velocity until the next tick (see the
counterexample). -/
theorem C3_rest_prestep (balls : List Ball)
    (hnc : (update balls).collisions = []) :
    (update balls).balls = balls.map (fun b => (moveBall b).1) ∧
    ∀ b ∈ balls, vecMag b.vel ≤ MIN_VELOCITY →
      (moveBall b).1 = { b with vel := ⟨0, 0⟩, sideSpin := 0, topSpin := 0 } := by
  constructor
  · rw [update_collisions_def] at hnc
    rw [update_balls_def, collidePhase_no_keys _ hnc, List.map_map]
    rfl
  · intro b _ hb
    rw [moveBall_rest b hb]

def w3ball : Ball := ⟨"w", ⟨50, 50⟩, ⟨0.1, 0⟩, 12, 1, 0.3, 0.2, []⟩

theorem C3_rest_prestep_witness :
    (update [w3ball]).collisions = [] ∧
    (update [w3ball]).balls = [w3ball].map (fun b => (moveBall b).1) ∧
    vecMag w3ball.vel ≤ MIN_VELOCITY ∧
    (moveBall w3ball).1 = { w3ball with vel := ⟨0, 0⟩, sideSpin := 0, topSpin := 0 } := by
  have hmag : vecMag w3ball.vel ≤ MIN_VELOCITY := by
    rw [show w3ball.vel = ⟨0.1, 0⟩ from rfl, vecMag_horiz 0.1 0 rfl, MIN_VELOCITY]
    norm_num [abs_le]
  have hnc : (update [w3ball]).collisions = [] := by
    rw [update_collisions_def, List.map_cons, List.map_nil,
      moveBall_rest w3ball hmag]
    simp [collidePhase_singleton]
  obtain ⟨h1, h2⟩ := C3_rest_prestep [w3ball] hnc
  exact ⟨hnc, h1, hmag, h2 w3ball (List.mem_singleton.2 rfl) hmag⟩

/-! C4: boundary clamp. -/

def c4b1 : Ball := ⟨"p", ⟨755, 200⟩, ⟨20, 0⟩, 12, 1, 0, 0, []⟩
def c4b2 : Ball := ⟨"q", ⟨785, 200⟩, ⟨0, 0⟩, 12, 1, 0, 0, []⟩

def c4b1Mid : Ball := ⟨"p", ⟨775, 200⟩, ⟨19.76, 0⟩, 12, 1, 0, 0, [⟨775, 200⟩]⟩

def c4b1After : Ball := ⟨"p", ⟨768, 200⟩, ⟨0.7904, 0⟩, 12, 1, 0, 0, [⟨775, 200⟩]⟩
def c4b2After : Ball := ⟨"q", ⟨792, 200⟩, ⟨18.9696, 0⟩, 12, 1, 0, 0, []⟩

theorem c4_move1 : moveBall c4b1 = (c4b1Mid, none) := by
  have hfast : MIN_VELOCITY < vecMag c4b1.vel := by
    rw [show c4b1.vel = ⟨20, 0⟩ from rfl, vecMag_horiz 20 0 rfl, MIN_VELOCITY]
    norm_num
  have hpv : vecAdd c4b1.pos c4b1.vel = ⟨775, 200⟩ := by
    norm_num [c4b1, vecAdd]
  rw [moveBall_noWall c4b1 hfast rfl
    (by rw [hpv]; norm_num [c4b1])
    (by rw [hpv]; norm_num [c4b1, TABLE_WIDTH])
    (by rw [hpv]; norm_num [c4b1])
    (by rw [hpv]; norm_num [c4b1, TABLE_HEIGHT])]
  norm_num [c4b1, c4b1Mid, vecAdd, vecMul, FRICTION, SPIN_FRICTION]

theorem c4_move2 : moveBall c4b2 = (c4b2, none) := by
  have hmag : vecMag c4b2.vel ≤ MIN_VELOCITY := by
    rw [show c4b2.vel = ⟨0, 0⟩ from rfl, vecMag_zero, MIN_VELOCITY]
    norm_num
  rw [moveBall_rest c4b2 hmag]
  simp [c4b2]

theorem c4_resolve : resolveCollision c4b1Mid c4b2 = (c4b1After, c4b2After) := by
  have hsub : vecSub c4b2.pos c4b1Mid.pos = ⟨10, 0⟩ := by
    norm_num [vecSub, c4b2, c4b1Mid]
  have hn : vecNormalize (vecSub c4b2.pos c4b1Mid.pos) = ⟨1, 0⟩ := by
    rw [hsub]
    exact vecNormalize_xPos 10 0 (by norm_num) rfl
  have hd : vecDist c4b1Mid.pos c4b2.pos = 10 := by
    rw [show c4b1Mid.pos = ⟨775, 200⟩ from rfl,
      show c4b2.pos = ⟨785, 200⟩ from rfl, vecDist_horiz,
      show (775 : ℝ) - 785 = -10 by norm_num, abs_neg,
      abs_of_nonneg (by norm_num : (0 : ℝ) ≤ 10)]
  simp only [resolveCollision, hn, hd]
  norm_num [vecSub, vecDot, vecMul, vecAdd, c4b1Mid, c4b2, c4b1After, c4b2After,
    BALL_BOUNCE, TOP_SPIN_FOLLOW_FACTOR]

/-- C4 counterexample: two balls that both start inside the table (and the
moved ball is clamped in bounds by the cushion logic) end the tick with
the struck ball's center at x = 792 > `TABLE_WIDTH` − radius = 788: the
overlap correction of the collision resolver pushes it past the cushion
bound, so the boundary clamp does not hold after every step. -/
theorem C4_bounds_cex :
    (update [c4b1, c4b2]).balls = [c4b1After, c4b2After] ∧
    TABLE_WIDTH - c4b2After.radius < c4b2After.pos.x := by
  constructor
  · have hdlt : vecDist c4b1Mid.pos c4b2.pos < c4b1Mid.radius + c4b2.radius := by
      rw [show c4b1Mid.pos = ⟨775, 200⟩ from rfl,
        show c4b2.pos = ⟨785, 200⟩ from rfl, vecDist_horiz,
        show (775 : ℝ) - 785 = -10 by norm_num, abs_neg,
        abs_of_nonneg (by norm_num : (0 : ℝ) ≤ 10)]
      norm_num [c4b1Mid, c4b2]
    have hsp : 0 < vecDot (vecSub c4b1Mid.vel c4b2.vel)
        (vecNormalize (vecSub c4b2.pos c4b1Mid.pos)) := by
      have hsub : vecSub c4b2.pos c4b1Mid.pos = ⟨10, 0⟩ := by
        norm_num [vecSub, c4b2, c4b1Mid]
      rw [hsub, vecNormalize_xPos 10 0 (by norm_num) rfl]
      norm_num [vecSub, vecDot, c4b1Mid, c4b2]
    have hsw1 : (sweep c4b1Mid [c4b2]).1 = c4b1After ∧
        (sweep c4b1Mid [c4b2]).2.1 = [c4b2After] := by
      simp only [sweep, if_pos hdlt, if_pos hsp, c4_resolve]
      constructor <;> trivial
    rw [update_balls_def]
    simp only [List.map_cons, List.map_nil, c4_move1, c4_move2]
    simp only [collidePhase]
    rw [hsw1.1, hsw1.2, collidePhase_singleton]
  · norm_num [c4b2After, TABLE_WIDTH]

theorem cushionX_x_bound (r s : ℝ) (p v : Vec2) (hw : 2 * r ≤ TABLE_WIDTH) :
    r ≤ (cushionX r s p v).pos.x ∧ (cushionX r s p v).pos.x ≤ TABLE_WIDTH - r := by
  rw [cushionX]
  split_ifs with h1 h2 <;> constructor <;> simp only <;> linarith

theorem cushionY_x_preserved (r s wi : ℝ) (p v : Vec2) :
    (cushionY r s wi p v).pos.x = p.x := by
  rw [cushionY]
  split_ifs <;> rfl

theorem cushionY_y_bound (r s wi : ℝ) (p v : Vec2) (hh : 2 * r ≤ TABLE_HEIGHT) :
    r ≤ (cushionY r s wi p v).pos.y ∧ (cushionY r s wi p v).pos.y ≤ TABLE_HEIGHT - r := by
  rw [cushionY]
  split_ifs with h1 h2 <;> constructor <;> simp only <;> linarith

/-- C4 amended: the bounds do hold for every ball the move phase actually
moved (pre-step speed above `MIN_VELOCITY`, ball small enough to fit the
table), immediately after the per-ball phase with its cushion clamp; balls
at rest are left wherever they already are, and the ball-ball overlap
correction can afterwards push a resolved ball back out of bounds (see the
counterexample). -/
theorem C4_moved_ball_bounds (b : Ball) (hfast : MIN_VELOCITY < vecMag b.vel)
    (hw : 2 * b.radius ≤ TABLE_WIDTH) (hh : 2 * b.radius ≤ TABLE_HEIGHT) :
    b.radius ≤ (moveBall b).1.pos.x ∧
    (moveBall b).1.pos.x ≤ TABLE_WIDTH - b.radius ∧
    b.radius ≤ (moveBall b).1.pos.y ∧
    (moveBall b).1.pos.y ≤ TABLE_HEIGHT - b.radius := by
  simp only [moveBall, if_pos hfast]
  obtain ⟨hx1, hx2⟩ := cushionX_x_bound b.radius (b.sideSpin * SPIN_FRICTION)
    (vecAdd b.pos (vecAdd b.vel (vecMul (vecNormalize b.vel) (b.topSpin * 0.015))))
    (vecMul (vecAdd b.vel (vecMul (vecNormalize b.vel) (b.topSpin * 0.015))) FRICTION) hw
  obtain ⟨hy1, hy2⟩ := cushionY_y_bound b.radius (b.sideSpin * SPIN_FRICTION)
    (cushionX b.radius (b.sideSpin * SPIN_FRICTION)
      (vecAdd b.pos (vecAdd b.vel (vecMul (vecNormalize b.vel) (b.topSpin * 0.015))))
      (vecMul (vecAdd b.vel (vecMul (vecNormalize b.vel) (b.topSpin * 0.015))) FRICTION)).intensity
    (cushionX b.radius (b.sideSpin * SPIN_FRICTION)
      (vecAdd b.pos (vecAdd b.vel (vecMul (vecNormalize b.vel) (b.topSpin * 0.015))))
      (vecMul (vecAdd b.vel (vecMul (vecNormalize b.vel) (b.topSpin * 0.015))) FRICTION)).pos
    (cushionX b.radius (b.sideSpin * SPIN_FRICTION)
      (vecAdd b.pos (vecAdd b.vel (vecMul (vecNormalize b.vel) (b.topSpin * 0.015))))
      (vecMul (vecAdd b.vel (vecMul (vecNormalize b.vel) (b.topSpin * 0.015))) FRICTION)).vel hh
  rw [cushionY_x_preserved] at *
  exact ⟨by simpa using hx1, by simpa using hx2, by simpa using hy1, by simpa using hy2⟩

def w4ball : Ball := ⟨"w4", ⟨100, 100⟩, ⟨5, 0⟩, 12, 1, 0.1, 0, []⟩

theorem C4_moved_ball_bounds_witness :
    MIN_VELOCITY < vecMag w4ball.vel ∧ 2 * w4ball.radius ≤ TABLE_WIDTH ∧
    2 * w4ball.radius ≤ TABLE_HEIGHT ∧
    (w4ball.radius ≤ (moveBall w4ball).1.pos.x ∧
     (moveBall w4ball).1.pos.x ≤ TABLE_WIDTH - w4ball.radius ∧
     w4ball.radius ≤ (moveBall w4ball).1.pos.y ∧
     (moveBall w4ball).1.pos.y ≤ TABLE_HEIGHT - w4ball.radius) := by
  have hfast : MIN_VELOCITY < vecMag w4ball.vel := by
    rw [show w4ball.vel = ⟨5, 0⟩ from rfl, vecMag_horiz 5 0 rfl, MIN_VELOCITY]
    norm_num
  have hw : 2 * w4ball.radius ≤ TABLE_WIDTH := by norm_num [w4ball, TABLE_WIDTH]
  have hh : 2 * w4ball.radius ≤ TABLE_HEIGHT := by norm_num [w4ball, TABLE_HEIGHT]
  exact ⟨hfast, hw, hh, C4_moved_ball_bounds w4ball hfast hw hh⟩

/-! C5: wall event emission. -/

theorem abs_eval_neg {a b : ℝ} (h : a = -b) (hb : 0 ≤ b) : |a| = b := by
  rw [h, abs_neg, abs_of_nonneg hb]

def c5b : Ball := ⟨"e", ⟨15, 18⟩, ⟨-9, -12⟩, 12, 1, 0, 0, []⟩
def c5bAfter : Ball := ⟨"e", ⟨12, 12⟩, ⟨6.669, 8.892⟩, 12, 1, 0, 0, [⟨6, 6⟩]⟩
def c5ev : CollisionEvent := ⟨CEKind.wall, 1.482, ⟨0, 0⟩, none, none⟩

theorem c5_mag : vecMag c5b.vel = 15 := by
  rw [show c5b.vel = ⟨-9, -12⟩ from rfl, vecMag,
    show ((-9 : ℝ) * -9 + (-12) * -12) = 15 ^ 2 by norm_num,
    Real.sqrt_sq (by norm_num : (0 : ℝ) ≤ 15)]

theorem c5_move : moveBall c5b = (c5bAfter, some c5ev) := by
  have hfast : MIN_VELOCITY < vecMag c5b.vel := by
    rw [c5_mag, MIN_VELOCITY]
    norm_num
  have hv0 : vecAdd c5b.vel (vecMul (vecNormalize c5b.vel) (c5b.topSpin * 0.015)) =
      c5b.vel := by
    rw [show c5b.topSpin = 0 from rfl]
    simp [vecMul, vecAdd]
  have hpv : vecAdd c5b.pos c5b.vel = ⟨6, 6⟩ := by norm_num [c5b, vecAdd]
  have hvf : vecMul c5b.vel FRICTION = ⟨-8.892, -11.856⟩ := by
    norm_num [c5b, vecMul, FRICTION]
  have habs1 : |(-8.892 : ℝ)| = 8.892 := abs_eval_neg (by norm_num) (by norm_num)
  have habs2 : |(-11.856 : ℝ)| = 11.856 := abs_eval_neg (by norm_num) (by norm_num)
  have hcx : cushionX c5b.radius (c5b.sideSpin * SPIN_FRICTION) ⟨6, 6⟩
      ⟨-8.892, -11.856⟩ = ⟨⟨12, 6⟩, ⟨6.669, -11.856⟩, 8.892, 0, true⟩ := by
    rw [cushionX_low _ _ _ _ (by norm_num [c5b])]
    norm_num [c5b, WALL_BOUNCE, SPIN_FRICTION, habs1, CushionOut.mk.injEq]
  have hcy : cushionY c5b.radius (c5b.sideSpin * SPIN_FRICTION) 8.892 ⟨12, 6⟩
      ⟨6.669, -11.856⟩ = ⟨⟨12, 12⟩, ⟨6.669, 8.892⟩, 11.856, 0, true⟩ := by
    rw [cushionY_low _ _ _ _ _ (by norm_num [c5b])]
    rw [habs2]
    norm_num [c5b, WALL_BOUNCE, SPIN_FRICTION, CushionOut.mk.injEq,
      max_eq_right (by norm_num : (8.892 : ℝ) ≤ 11.856)]
  simp only [moveBall, if_pos hfast, hv0, hpv, hvf, hcx, hcy]
  norm_num [c5b, c5bAfter, c5ev, SPIN_FRICTION, Prod.mk.injEq, Ball.mk.injEq,
    CollisionEvent.mk.injEq, Vec2.mk.injEq]

/-- C5 counterexample: a ball crossing both the low-x and the low-y cushion
in the same tick (its position is clamped to the corner (12, 12)) emits
exactly ONE wall event — the single `hitWall` flag merges the two axis
crossings — not two, with intensity max(8.892, 11.856)/8 = 1.482. -/
theorem C5_corner_one_event_cex :
    (update [c5b]).events = [c5ev] ∧ (update [c5b]).balls = [c5bAfter] ∧
    c5bAfter.pos.x = c5b.radius ∧ c5bAfter.pos.y = c5b.radius ∧
    (update [c5b]).events.length ≠ 2 := by
  have hev : (update [c5b]).events = [c5ev] := by
    rw [update_events_def, List.map_cons, List.map_nil, c5_move]
    simp [collidePhase_singleton]
  refine ⟨hev, ?_, by norm_num [c5bAfter, c5b], by norm_num [c5bAfter, c5b], ?_⟩
  · rw [update_balls_def, List.map_cons, List.map_nil, c5_move]
    simp [collidePhase_singleton]
  · rw [hev]
    norm_num

/-- C5 amended: each tick emits at most one wall event per ball; when the
ball crosses both cushion axes (shown for the low-x/low-y corner) still
only ONE event is emitted, whose intensity is the larger of the two
recorded axis impact speeds — the post-friction x speed, and the y speed
as already modified by the x cushion's side-spin deflection — divided
by 8 for audio-volume normalization. -/
theorem C5_single_event_max_intensity (b : Ball)
    (hfast : MIN_VELOCITY < vecMag b.vel)
    (hx : (vecAdd b.pos (vecAdd b.vel (vecMul (vecNormalize b.vel)
      (b.topSpin * 0.015)))).x - b.radius < 0)
    (hy : (vecAdd b.pos (vecAdd b.vel (vecMul (vecNormalize b.vel)
      (b.topSpin * 0.015)))).y - b.radius < 0) :
    (moveBall b).2 = some
      { kind := CEKind.wall,
        intensity := max
          |(vecMul (vecAdd b.vel (vecMul (vecNormalize b.vel) (b.topSpin * 0.015)))
            FRICTION).x|
          |(vecMul (vecAdd b.vel (vecMul (vecNormalize b.vel) (b.topSpin * 0.015)))
            FRICTION).y + b.sideSpin * SPIN_FRICTION *
            |(vecMul (vecAdd b.vel (vecMul (vecNormalize b.vel) (b.topSpin * 0.015)))
              FRICTION).x * -WALL_BOUNCE| * SIDE_SPIN_CUSHION_FACTOR| / 8,
        pos := ⟨0, 0⟩, ballIds := none, spinFactor := none } := by
  simp only [moveBall, if_pos hfast]
  rw [cushionX_low _ _ _ _ hx]
  rw [cushionY_low _ _ _ _ _ (by simpa using hy)]
  simp

def w5b : Ball := ⟨"w5", ⟨14, 16⟩, ⟨-6, -8⟩, 12, 1, 0.2, 0, []⟩

theorem C5_single_event_max_intensity_witness :
    MIN_VELOCITY < vecMag w5b.vel ∧
    (vecAdd w5b.pos (vecAdd w5b.vel (vecMul (vecNormalize w5b.vel)
      (w5b.topSpin * 0.015)))).x - w5b.radius < 0 ∧
    (vecAdd w5b.pos (vecAdd w5b.vel (vecMul (vecNormalize w5b.vel)
      (w5b.topSpin * 0.015)))).y - w5b.radius < 0 ∧
    (moveBall w5b).2 = some
      { kind := CEKind.wall,
        intensity := max
          |(vecMul (vecAdd w5b.vel (vecMul (vecNormalize w5b.vel) (w5b.topSpin * 0.015)))
            FRICTION).x|
          |(vecMul (vecAdd w5b.vel (vecMul (vecNormalize w5b.vel) (w5b.topSpin * 0.015)))
            FRICTION).y + w5b.sideSpin * SPIN_FRICTION *
            |(vecMul (vecAdd w5b.vel (vecMul (vecNormalize w5b.vel) (w5b.topSpin * 0.015)))
              FRICTION).x * -WALL_BOUNCE| * SIDE_SPIN_CUSHION_FACTOR| / 8,
        pos := ⟨0, 0⟩, ballIds := none, spinFactor := none } := by
  have hv0 : vecAdd w5b.vel (vecMul (vecNormalize w5b.vel) (w5b.topSpin * 0.015)) =
      w5b.vel := by
    rw [show w5b.topSpin = 0 from rfl]
    simp [vecMul, vecAdd]
  have hfast : MIN_VELOCITY < vecMag w5b.vel := by
    rw [show w5b.vel = ⟨-6, -8⟩ from rfl, vecMag,
      show ((-6 : ℝ) * -6 + (-8) * -8) = 10 ^ 2 by norm_num,
      Real.sqrt_sq (by norm_num : (0 : ℝ) ≤ 10), MIN_VELOCITY]
    norm_num
  have hx : (vecAdd w5b.pos (vecAdd w5b.vel (vecMul (vecNormalize w5b.vel)
      (w5b.topSpin * 0.015)))).x - w5b.radius < 0 := by
    rw [hv0]
    norm_num [w5b, vecAdd]
  have hy : (vecAdd w5b.pos (vecAdd w5b.vel (vecMul (vecNormalize w5b.vel)
      (w5b.topSpin * 0.015)))).y - w5b.radius < 0 := by
    rw [hv0]
    norm_num [w5b, vecAdd]
  exact ⟨hfast, hx, hy, C5_single_event_max_intensity w5b hfast hx hy⟩

/-! C2: non-overlap invariant. -/

theorem vecDist_comm (a b : Vec2) : vecDist a b = vecDist b a := by
  rw [vecDist, vecDist, vecMag, vecMag, vecSub, vecSub]
  congr 1
  ring

def c2a : Ball := ⟨"m", ⟨100, 200⟩, ⟨0, 0⟩, 12, 1, 0, 0, []⟩
def c2n : Ball := ⟨"n", ⟨110, 200⟩, ⟨0, 0⟩, 12, 1, 0, 0, []⟩

/-- C2 counterexample: two overlapping balls at rest (centers 10 apart,
radii 12 each) pass through `update` unchanged — the zero relative
velocity fails the approaching-pair guard, so the overlap is never
corrected and the distance stays 10 < 24 after the step. -/
theorem C2_overlap_persists_cex :
    (update [c2a, c2n]).balls = [c2a, c2n] ∧
    vecDist c2a.pos c2n.pos < c2a.radius + c2n.radius := by
  constructor
  · have hra : vecMag c2a.vel ≤ MIN_VELOCITY := by
      rw [show c2a.vel = ⟨0, 0⟩ from rfl, vecMag_zero, MIN_VELOCITY]
      norm_num
    have hrn : vecMag c2n.vel ≤ MIN_VELOCITY := by
      rw [show c2n.vel = ⟨0, 0⟩ from rfl, vecMag_zero, MIN_VELOCITY]
      norm_num
    have hma : moveBall c2a = (c2a, none) := by
      rw [moveBall_rest c2a hra]
      simp [c2a]
    have hmn : moveBall c2n = (c2n, none) := by
      rw [moveBall_rest c2n hrn]
      simp [c2n]
    rw [update_balls_def]
    simp only [List.map_cons, List.map_nil, hma, hmn]
    rw [collidePhase_rest]
    intro b hb
    rcases List.mem_pair.1 hb with rfl | rfl <;> rfl
  · rw [show c2a.pos = ⟨100, 200⟩ from rfl, show c2n.pos = ⟨110, 200⟩ from rfl,
      vecDist_horiz, show (100 : ℝ) - 110 = -10 by norm_num, abs_neg,
      abs_of_nonneg (by norm_num : (0 : ℝ) ≤ 10)]
    norm_num [c2a, c2n]

/-- C2 amended: the non-overlap guarantee holds exactly for the pairs the
step actually resolves: an overlapping, approaching pair leaves
`resolveCollision` with the distance between centers restored to exactly
the sum of the radii (the symmetric half-overlap push-apart); an
overlapping pair that is separating or at relative rest is skipped by the
approaching-pair guard and stays overlapping (see the counterexample). -/
theorem C2_resolved_pair_exact_separation (b1 b2 : Ball)
    (hover : vecDist b1.pos b2.pos < b1.radius + b2.radius)
    (happ : 0 < vecDot (vecSub b1.vel b2.vel)
      (vecNormalize (vecSub b2.pos b1.pos))) :
    vecDist (resolveCollision b1 b2).1.pos (resolveCollision b1 b2).2.pos =
      b1.radius + b2.radius := by
  have hne : vecMag (vecSub b2.pos b1.pos) ≠ 0 := by
    intro h0
    rw [vecNormalize, if_pos h0] at happ
    simp [vecDot] at happ
  have hdpos : 0 < vecMag (vecSub b2.pos b1.pos) :=
    (vecMag_nonneg _).lt_of_ne (Ne.symm hne)
  have hd : vecDist b1.pos b2.pos = vecMag (vecSub b2.pos b1.pos) := by
    rw [vecDist_comm, vecDist]
  set d := vecMag (vecSub b2.pos b1.pos) with hdDef
  set w := vecSub b2.pos b1.pos with hwDef
  have hover' : 0 < b1.radius + b2.radius - vecDist b1.pos b2.pos := by linarith
  rw [resolveCollision]
  rw [if_neg (not_lt.2 happ.le)]
  simp only [if_pos hover']
  set o := b1.radius + b2.radius - vecDist b1.pos b2.pos with hoDef
  have hnorm : vecNormalize w = vecDiv w d := vecNormalize_of_ne w hne
  have hsub : vecSub (vecAdd b2.pos (vecMul (vecNormalize w) (o / 2)))
      (vecSub b1.pos (vecMul (vecNormalize w) (o / 2))) =
      vecMul w (1 + o / d) := by
    rw [hnorm]
    have hwx : w.x = b2.pos.x - b1.pos.x := by rw [hwDef]; rfl
    have hwy : w.y = b2.pos.y - b1.pos.y := by rw [hwDef]; rfl
    apply Vec2.ext
    · show b2.pos.x + w.x / d * (o / 2) - (b1.pos.x - w.x / d * (o / 2)) =
        w.x * (1 + o / d)
      rw [hwx]
      field_simp
      ring
    · show b2.pos.y + w.y / d * (o / 2) - (b1.pos.y - w.y / d * (o / 2)) =
        w.y * (1 + o / d)
      rw [hwy]
      field_simp
      ring
  have hfinal : vecDist (vecSub b1.pos (vecMul (vecNormalize w) (o / 2)))
      (vecAdd b2.pos (vecMul (vecNormalize w) (o / 2))) = d + o := by
    rw [vecDist_comm, vecDist, hsub, vecMag_smul]
    rw [abs_of_pos (by positivity : (0 : ℝ) < 1 + o / d)]
    rw [← hdDef]
    field_simp
  rw [hfinal, hoDef, hd]
  ring

def w2a : Ball := ⟨"wa", ⟨200, 100⟩, ⟨8, 0⟩, 12, 1, 0, 0, []⟩
def w2b : Ball := ⟨"wb", ⟨212, 100⟩, ⟨0, 0⟩, 12, 1, 0, 0, []⟩

theorem C2_resolved_pair_exact_separation_witness :
    vecDist w2a.pos w2b.pos < w2a.radius + w2b.radius ∧
    0 < vecDot (vecSub w2a.vel w2b.vel)
      (vecNormalize (vecSub w2b.pos w2a.pos)) ∧
    vecDist (resolveCollision w2a w2b).1.pos (resolveCollision w2a w2b).2.pos =
      w2a.radius + w2b.radius := by
  have hover : vecDist w2a.pos w2b.pos < w2a.radius + w2b.radius := by
    rw [show w2a.pos = ⟨200, 100⟩ from rfl, show w2b.pos = ⟨212, 100⟩ from rfl,
      vecDist_horiz, show (200 : ℝ) - 212 = -12 by norm_num, abs_neg,
      abs_of_nonneg (by norm_num : (0 : ℝ) ≤ 12)]
    norm_num [w2a, w2b]
  have happ : 0 < vecDot (vecSub w2a.vel w2b.vel)
      (vecNormalize (vecSub w2b.pos w2a.pos)) := by
    have hsub : vecSub w2b.pos w2a.pos = ⟨12, 0⟩ := by norm_num [vecSub, w2a, w2b]
    rw [hsub, vecNormalize_xPos 12 0 (by norm_num) rfl]
    norm_num [vecSub, vecDot, w2a, w2b]
  exact ⟨hover, happ, C2_resolved_pair_exact_separation w2a w2b hover happ⟩

/-! C6: energy across a resolved collision. -/

/-- Kinetic energy ½·m·|v|² of a ball, the quantity named by the spec's
energy property (squared speed written as a dot product, no square root). -/
noncomputable def kineticE (b : Ball) : ℝ := b.mass * vecDot b.vel b.vel / 2

theorem kineticE_set_pos (b : Ball) (v p : Vec2) :
    kineticE { b with vel := v, pos := p } = b.mass * vecDot v v / 2 := rfl

def c6b1 : Ball := ⟨"f", ⟨100, 200⟩, ⟨10, 0⟩, 12, 1, 0, -10, []⟩
def c6b2 : Ball := ⟨"g", ⟨110, 200⟩, ⟨0, 0⟩, 12, 1, 0, 0, []⟩

def c6b1After : Ball := ⟨"f", ⟨93, 200⟩, ⟨17.9, 0⟩, 12, 1, 0, -10, []⟩
def c6b2After : Ball := ⟨"g", ⟨117, 200⟩, ⟨9.6, 0⟩, 12, 1, 0, 0, []⟩

/-- C6 counterexample: an overlapping, approaching pair in which the
striker carries draw spin (topSpin = −10) *gains* kinetic energy across
`resolveCollision`: the spin-follow force (here 17.5 along the normal)
raises the striker's speed from the post-impulse 0.4 to 17.9, taking the
system energy from 50 to 206.285.  The coupling is proportional to
topSpin, which is unbounded, so no fixed multiple of the pre-collision
speed bounds the post-collision speed either. -/
theorem C6_energy_increase_cex :
    vecDist c6b1.pos c6b2.pos < c6b1.radius + c6b2.radius ∧
    0 < vecDot (vecSub c6b1.vel c6b2.vel)
      (vecNormalize (vecSub c6b2.pos c6b1.pos)) ∧
    resolveCollision c6b1 c6b2 = (c6b1After, c6b2After) ∧
    kineticE c6b1 + kineticE c6b2 < kineticE c6b1After + kineticE c6b2After := by
  have hsub : vecSub c6b2.pos c6b1.pos = ⟨10, 0⟩ := by
    norm_num [vecSub, c6b1, c6b2]
  have hn : vecNormalize (vecSub c6b2.pos c6b1.pos) = ⟨1, 0⟩ := by
    rw [hsub]
    exact vecNormalize_xPos 10 0 (by norm_num) rfl
  have hd : vecDist c6b1.pos c6b2.pos = 10 := by
    rw [show c6b1.pos = ⟨100, 200⟩ from rfl, show c6b2.pos = ⟨110, 200⟩ from rfl,
      vecDist_horiz, show (100 : ℝ) - 110 = -10 by norm_num, abs_neg,
      abs_of_nonneg (by norm_num : (0 : ℝ) ≤ 10)]
  have habs : |(-10 : ℝ)| = 10 := abs_eval_neg (by norm_num) (by norm_num)
  refine ⟨by rw [hd]; norm_num [c6b1, c6b2], ?_, ?_, ?_⟩
  · rw [hn]
    norm_num [vecSub, vecDot, c6b1, c6b2]
  · simp only [resolveCollision, hn, hd]
    rw [show c6b1.topSpin = -10 from rfl, habs]
    norm_num [vecSub, vecDot, vecMul, vecAdd, c6b1, c6b2, c6b1After, c6b2After,
      BALL_BOUNCE, TOP_SPIN_FOLLOW_FACTOR, Prod.mk.injEq, Ball.mk.injEq,
      Vec2.mk.injEq]
  · norm_num [kineticE, vecDot, c6b1, c6b2, c6b1After, c6b2After]

/-- C6 amended: when the spin-follow branch is inactive (|topSpin| ≤ 0.05)
the total kinetic energy of the two-ball system never increases across
`resolveCollision` (restitution 0.96 < 1 strictly bleeds energy from any
approaching pair); with the follow branch active the claim fails and the
injected speed grows linearly in the unbounded topSpin (see the
counterexample). -/
theorem C6_energy_nonincrease_no_follow (b1 b2 : Ball)
    (hm1 : 0 < b1.mass) (hm2 : 0 < b2.mass) (htop : |b1.topSpin| ≤ 0.05) :
    kineticE (resolveCollision b1 b2).1 + kineticE (resolveCollision b1 b2).2 ≤
      kineticE b1 + kineticE b2 := by
  by_cases hs : vecDot (vecSub b1.vel b2.vel)
      (vecNormalize (vecSub b2.pos b1.pos)) < 0
  · rw [resolveCollision, if_pos hs]
  · rw [resolveCollision, if_neg hs]
    simp only [if_neg (not_lt.2 htop)]
    by_cases h0 : vecMag (vecSub b2.pos b1.pos) = 0
    · rw [vecNormalize, if_pos h0]
      simp [kineticE, vecDot, vecSub, vecAdd, vecMul]
    · have hn : vecDot (vecNormalize (vecSub b2.pos b1.pos))
          (vecNormalize (vecSub b2.pos b1.pos)) = 1 :=
        vecDot_normalize_self _ h0
      set n := vecNormalize (vecSub b2.pos b1.pos) with hnDef
      set S := vecDot (vecSub b1.vel b2.vel) n with hSDef
      set M := b1.mass + b2.mass with hMDef
      have hM : 0 < M := by rw [hMDef]; linarith
      set j := 2 * S / M * BALL_BOUNCE with hjDef
      have hjM : j * M = 1.92 * S := by
        rw [hjDef, BALL_BOUNCE]
        field_simp
        ring
      have h1 : j * S * M = 1.92 * (S * S) := by linear_combination S * hjM
      have hjS : 0 ≤ j * S := by
        by_contra hneg
        push_neg at hneg
        have h2 : j * S * M < 0 := mul_neg_of_neg_of_pos hneg hM
        nlinarith [mul_self_nonneg S, h1]
      have hncomp : n.x * n.x + n.y * n.y = 1 := by rwa [vecDot] at hn
      have hScomp : S = (b1.vel.x - b2.vel.x) * n.x + (b1.vel.y - b2.vel.y) * n.y := by
        rw [hSDef, vecSub, vecDot]
      simp only [kineticE_set_pos]
      have key : b1.mass * vecDot (vecSub b1.vel (vecMul n (j * b2.mass)))
            (vecSub b1.vel (vecMul n (j * b2.mass))) / 2 +
          b2.mass * vecDot (vecAdd b2.vel (vecMul n (j * b1.mass)))
            (vecAdd b2.vel (vecMul n (j * b1.mass))) / 2 =
          kineticE b1 + kineticE b2 - 0.04 * j * S * (b1.mass * b2.mass) +
            (j * M - 1.92 * S) * (j / 2 * (b1.mass * b2.mass)) -
            (1 - (n.x * n.x + n.y * n.y)) *
              (j * j / 2 * (b1.mass * b2.mass) * M) := by
        rw [hScomp, hMDef]
        simp only [kineticE, vecSub, vecAdd, vecMul, vecDot]
        ring
      rw [key, hncomp, hjM]
      have hcancel : 0 ≤ 0.04 * j * S * (b1.mass * b2.mass) := by
        nlinarith [hjS, mul_pos hm1 hm2]
      nlinarith [hcancel]

def w6a : Ball := ⟨"wf", ⟨300, 120⟩, ⟨6, 0⟩, 12, 1, 0, 0.03, []⟩
def w6b : Ball := ⟨"wg", ⟨310, 120⟩, ⟨0, 0⟩, 12, 1, 0, 0, []⟩

theorem C6_energy_nonincrease_no_follow_witness :
    0 < w6a.mass ∧ 0 < w6b.mass ∧ |w6a.topSpin| ≤ 0.05 ∧
    kineticE (resolveCollision w6a w6b).1 + kineticE (resolveCollision w6a w6b).2 ≤
      kineticE w6a + kineticE w6b := by
  have hm1 : (0 : ℝ) < w6a.mass := by norm_num [w6a]
  have hm2 : (0 : ℝ) < w6b.mass := by norm_num [w6b]
  have htop : |w6a.topSpin| ≤ 0.05 := by
    rw [show w6a.topSpin = 0.03 from rfl, abs_of_nonneg (by norm_num : (0 : ℝ) ≤ 0.03)]
    norm_num
  exact ⟨hm1, hm2, htop, C6_energy_nonincrease_no_follow w6a w6b hm1 hm2 htop⟩

/-! C8: prediction with no reachable target. -/

/-- The contact scan misses when no other ball is within two radii. -/
theorem scanBalls_eq_none (cueMass : ℝ) (st : SimState) (path : List Vec2)
    (others : List Ball)
    (h : ∀ o ∈ others, ¬ vecDist st.pos o.pos < BALL_RADIUS * 2) :
    scanBalls cueMass st path others = none := by
  induction others with
  | nil => rw [scanBalls]
  | cons o rest ih =>
    rw [scanBalls, if_neg (h o (List.mem_cons_self _ _))]
    exact ih fun o' ho' => h o' (List.mem_cons_of_mem _ ho')

/-- The predictive run never comes within two radii of any other ball
before the speed floor or the iteration cap is reached: at each executed
iteration the stepped position misses every other ball, and the chain
stops as soon as the stepped speed drops below `MIN_VELOCITY` (the loop's
early exit, whose contact scan has already run for that step) or the fuel
runs out. -/
def ContactFree (others : List Ball) : ℕ → SimState → Prop
  | 0, _ => True
  | fuel + 1, st =>
    (∀ o ∈ others, ¬ vecDist (predFreeStep st).1.pos o.pos < BALL_RADIUS * 2) ∧
    (vecMag (predFreeStep st).1.vel < MIN_VELOCITY ∨
      ContactFree others fuel (predFreeStep st).1)

/-- On a contact-free run the main loop only ever exits through the fuel
cap or the speed floor, both of which return just the accumulated path. -/
theorem predGo_contactFree (cueMass : ℝ) (others : List Ball) (fuel : ℕ) :
    ∀ (i : ℕ) (st : SimState) (path : List Vec2),
      ContactFree others fuel st →
      (predGo cueMass others fuel i st path).ghostBall = none ∧
      (predGo cueMass others fuel i st path).targetPath = none ∧
      (predGo cueMass others fuel i st path).thickness = none ∧
      (predGo cueMass others fuel i st path).angle = none := by
  induction fuel with
  | zero =>
    intro i st path _
    exact ⟨rfl, rfl, rfl, rfl⟩
  | succ fuel ih =>
    intro i st path h
    obtain ⟨hmiss, hrest⟩ := h
    rw [predGo]
    simp only [scanBalls_eq_none cueMass (predFreeStep st).1 _ others hmiss]
    by_cases hslow : vecMag (predFreeStep st).1.vel < MIN_VELOCITY
    · simp only [if_pos hslow]
      exact ⟨trivial, trivial, trivial, trivial⟩
    · simp only [if_neg hslow]
      exact ih (i + 1) (predFreeStep st).1 _ (hrest.resolve_left hslow)

/-- C8: on every input whose simulated cue position never comes within two
radii of any other ball before the speed floor or the 400-iteration cap is
reached, `predict` returns a result with only the path: no ghost ball, no
target path, no thickness and no angle (and, being a total function, it
raises no fatal condition). -/
theorem C8_no_contact_partial (cueBall : Ball) (otherBalls : List Ball)
    (direction : Vec2) (power : ℝ) (spinOffset : Vec2)
    (h : ContactFree otherBalls 400
      ⟨cueBall.pos, (calculateCueImpact direction power spinOffset).velocity,
       (calculateCueImpact direction power spinOffset).sideSpin,
       (calculateCueImpact direction power spinOffset).topSpin⟩) :
    (predict cueBall otherBalls direction power spinOffset).ghostBall = none ∧
    (predict cueBall otherBalls direction power spinOffset).targetPath = none ∧
    (predict cueBall otherBalls direction power spinOffset).thickness = none ∧
    (predict cueBall otherBalls direction power spinOffset).angle = none := by
  rw [predict]
  exact predGo_contactFree cueBall.mass otherBalls 400 0 _ _ h

/-! Shared free-flight machinery for the prediction claims (C1, C7):
with zero top spin and away from the cushions, both the real per-ball
phase and the predictive loop advance the cue ball by the same kernel
`pos += vel; vel *= FRICTION`. -/

/-- One free-flight step of the common kernel. -/
noncomputable def flight (s : Vec2 × Vec2) : Vec2 × Vec2 :=
  (vecAdd s.1 s.2, vecMul s.2 FRICTION)

/-- `k` free-flight steps. -/
noncomputable def flightN : ℕ → Vec2 × Vec2 → Vec2 × Vec2
  | 0, s => s
  | k + 1, s => flight (flightN k s)

theorem flightN_shift (k : ℕ) (s : Vec2 × Vec2) :
    flightN (k + 1) s = flightN k (flight s) := by
  induction k with
  | zero => rfl
  | succ k ih => rw [flightN, ih, flightN]

/-- Position strictly inside the cushion box (for radius `BALL_RADIUS`),
the negation of all four wall conditions of the predictive loop. -/
def wallFree (p : Vec2) : Prop :=
  BALL_RADIUS ≤ p.x ∧ p.x ≤ TABLE_WIDTH - BALL_RADIUS ∧
  BALL_RADIUS ≤ p.y ∧ p.y ≤ TABLE_HEIGHT - BALL_RADIUS

/-- A free step of the predictive loop away from all cushions fires
neither wall block. -/
theorem predFreeStep_miss (st : SimState)
    (hw : wallFree (vecAdd st.pos st.vel)) :
    predFreeStep st =
      (⟨vecAdd st.pos st.vel, vecMul st.vel FRICTION,
        st.side * SPIN_FRICTION, st.top * SPIN_FRICTION⟩, false, false) := by
  obtain ⟨hx1, hx2, hy1, hy2⟩ := hw
  have hX : ¬((vecAdd st.pos st.vel).x < BALL_RADIUS ∨
      TABLE_WIDTH - BALL_RADIUS < (vecAdd st.pos st.vel).x) := by
    push_neg
    exact ⟨hx1, hx2⟩
  have hY : ¬((vecAdd st.pos st.vel).y < BALL_RADIUS ∨
      TABLE_HEIGHT - BALL_RADIUS < (vecAdd st.pos st.vel).y) := by
    push_neg
    exact ⟨hy1, hy2⟩
  simp only [predFreeStep, if_neg hX, if_neg hY]
  simp [hX, hY]

/-- One full no-event iteration of the predictive loop. -/
theorem predGo_free_step (cueMass : ℝ) (others : List Ball) (fuel i : ℕ)
    (st : SimState) (path : List Vec2)
    (hw : wallFree (vecAdd st.pos st.vel))
    (hmiss : ∀ o ∈ others, ¬ vecDist (vecAdd st.pos st.vel) o.pos < BALL_RADIUS * 2)
    (hfast : ¬ vecMag (vecMul st.vel FRICTION) < MIN_VELOCITY) :
    predGo cueMass others (fuel + 1) i st path =
      predGo cueMass others fuel (i + 1)
        ⟨vecAdd st.pos st.vel, vecMul st.vel FRICTION,
         st.side * SPIN_FRICTION, st.top * SPIN_FRICTION⟩
        (if i % 10 = 0 then path ++ [vecAdd st.pos st.vel] else path) := by
  rw [predGo, predFreeStep_miss st hw]
  simp only [Bool.false_eq_true, if_false,
    scanBalls_eq_none cueMass ⟨vecAdd st.pos st.vel, vecMul st.vel FRICTION,
      st.side * SPIN_FRICTION, st.top * SPIN_FRICTION⟩ path others hmiss,
    if_neg hfast]

/-- The contact iteration of the predictive loop against a single other
ball: the stepped position lands within two radii and the loop returns the
first-contact result built from the stepped state. -/
theorem predGo_contact_step (cueMass : ℝ) (tb : Ball) (fuel i : ℕ)
    (st : SimState) (path : List Vec2)
    (hw : wallFree (vecAdd st.pos st.vel))
    (hc : vecDist (vecAdd st.pos st.vel) tb.pos < BALL_RADIUS * 2) :
    predGo cueMass [tb] (fuel + 1) i st path =
      contactResult cueMass tb
        ⟨vecAdd st.pos st.vel, vecMul st.vel FRICTION,
         st.side * SPIN_FRICTION, st.top * SPIN_FRICTION⟩ path := by
  rw [predGo, predFreeStep_miss st hw]
  simp only [Bool.false_eq_true, if_false]
  rw [scanBalls]
  simp only [if_pos hc]

/-- Several no-event iterations of the predictive loop, with the path
growing only by free-flight positions. -/
theorem predGo_free_multi (cueMass : ℝ) (others : List Ball) :
    ∀ (N fuel i : ℕ) (p v : Vec2) (path : List Vec2), N ≤ fuel →
      (∀ k, k < N → wallFree (flightN (k + 1) (p, v)).1 ∧
        (∀ o ∈ others, ¬ vecDist (flightN (k + 1) (p, v)).1 o.pos < BALL_RADIUS * 2) ∧
        ¬ vecMag (flightN (k + 1) (p, v)).2 < MIN_VELOCITY) →
      ∃ path', predGo cueMass others fuel i ⟨p, v, 0, 0⟩ path =
        predGo cueMass others (fuel - N) (i + N)
          ⟨(flightN N (p, v)).1, (flightN N (p, v)).2, 0, 0⟩ path' ∧
        ∀ q ∈ path', q ∈ path ∨ ∃ k, 1 ≤ k ∧ k ≤ N ∧ q = (flightN k (p, v)).1 := by
  intro N
  induction N with
  | zero =>
    intro fuel i p v path _ _
    exact ⟨path, by simp [flightN], fun q hq => Or.inl hq⟩
  | succ N ih =>
    intro fuel i p v path hN h
    obtain ⟨fuel', rfl⟩ : ∃ fuel', fuel = fuel' + 1 :=
      ⟨fuel - 1, (Nat.succ_pred_eq_of_pos (lt_of_lt_of_le (Nat.succ_pos N) hN)).symm⟩
    obtain ⟨hw0, hm0, hf0⟩ := h 0 (Nat.succ_pos N)
    have hflight1 : flightN 1 (p, v) = (vecAdd p v, vecMul v FRICTION) := rfl
    rw [hflight1] at hw0 hm0 hf0
    rw [predGo_free_step cueMass others fuel' i ⟨p, v, 0, 0⟩ path hw0 hm0 hf0]
    have hzero : (0 : ℝ) * SPIN_FRICTION = 0 := by ring
    rw [hzero]
    have hcond : ∀ k, k < N →
        wallFree (flightN (k + 1) (vecAdd p v, vecMul v FRICTION)).1 ∧
        (∀ o ∈ others, ¬ vecDist (flightN (k + 1) (vecAdd p v, vecMul v FRICTION)).1
          o.pos < BALL_RADIUS * 2) ∧
        ¬ vecMag (flightN (k + 1) (vecAdd p v, vecMul v FRICTION)).2 < MIN_VELOCITY := by
      intro k hk
      have := h (k + 1) (Nat.succ_lt_succ hk)
      rwa [flightN_shift (k + 1) (p, v)] at this
    obtain ⟨path', heq, hmem⟩ := ih fuel' (i + 1) (vecAdd p v) (vecMul v FRICTION)
      (if i % 10 = 0 then path ++ [vecAdd p v] else path)
      (Nat.le_of_succ_le_succ hN) hcond
    refine ⟨path', ?_, ?_⟩
    · rw [heq]
      have h1 : fuel' + 1 - (N + 1) = fuel' - N := by omega
      have h2 : i + 1 + N = i + (N + 1) := by omega
      have h3 : flightN N (vecAdd p v, vecMul v FRICTION) = flightN (N + 1) (p, v) := by
        rw [flightN_shift]
        rfl
      rw [h1, h2, h3]
    · intro q hq
      rcases hmem q hq with hq' | ⟨k, hk1, hk2, hk3⟩
      · by_cases hi : i % 10 = 0
        · rw [if_pos hi] at hq'
          rcases List.mem_append.1 hq' with hq'' | hq''
          · exact Or.inl hq''
          · refine Or.inr ⟨1, le_refl 1, by omega, ?_⟩
            rw [hflight1]
            simpa using hq''
        · rw [if_neg hi] at hq'
          exact Or.inl hq'
      · refine Or.inr ⟨k + 1, by omega, by omega, ?_⟩
        rw [flightN_shift]
        exact hk3

theorem vecSub_zero (v : Vec2) : vecSub v ⟨0, 0⟩ = v := by
  simp [vecSub]

/-- A ball already in the fully-at-rest state is a fixed point of the
per-ball phase. -/
theorem moveBall_rest_id (tb : Ball) (hv : tb.vel = ⟨0, 0⟩)
    (hss : tb.sideSpin = 0) (hts : tb.topSpin = 0) :
    moveBall tb = (tb, none) := by
  have hmag : vecMag tb.vel ≤ MIN_VELOCITY := by
    rw [hv, vecMag_zero, MIN_VELOCITY]
    norm_num
  rw [moveBall_rest tb hmag]
  have : ({ tb with vel := ⟨0, 0⟩, sideSpin := 0, topSpin := 0 } : Ball) = tb := by
    apply Ball.ext <;> simp [hv, hss, hts]
  rw [this]

theorem sweep_pair_miss (b1 b2 : Ball)
    (h : ¬ vecDist b1.pos b2.pos < b1.radius + b2.radius) :
    sweep b1 [b2] = (b1, [b2], [], []) := by
  simp only [sweep, if_neg h]

theorem sweep_pair_hit (b1 b2 : Ball)
    (h : vecDist b1.pos b2.pos < b1.radius + b2.radius)
    (hs : 0 < vecDot (vecSub b1.vel b2.vel) (vecNormalize (vecSub b2.pos b1.pos))) :
    sweep b1 [b2] = ((resolveCollision b1 b2).1, [(resolveCollision b1 b2).2],
      [b1.id ++ "-" ++ b2.id],
      [⟨CEKind.ball,
        vecDot (vecSub b1.vel b2.vel) (vecNormalize (vecSub b2.pos b1.pos)) / 8,
        vecAdd b1.pos (vecMul (vecNormalize (vecSub b2.pos b1.pos)) b1.radius),
        some (b1.id, b2.id), none⟩]) := by
  simp only [sweep, if_pos h, if_pos hs]

/-- A free tick of the two-ball system: the moving cue ball integrates
without cushion or ball contact, the resting target stays put, nothing is
emitted. -/
theorem update_free_tick (c tb : Ball)
    (htbv : tb.vel = ⟨0, 0⟩) (htbs : tb.sideSpin = 0) (htbt : tb.topSpin = 0)
    (hnc : ¬ vecDist (moveBall c).1.pos tb.pos < c.radius + tb.radius)
    (hrad : (moveBall c).1.radius = c.radius) :
    (update [c, tb]).balls = [(moveBall c).1, tb] ∧
    (update [c, tb]).collisions = [] ∧
    (update [c, tb]).events = (moveBall c).2.toList := by
  have hmt := moveBall_rest_id tb htbv htbs htbt
  have hsw : sweep (moveBall c).1 [tb] = ((moveBall c).1, [tb], [], []) := by
    apply sweep_pair_miss
    rw [hrad]
    exact hnc
  refine ⟨?_, ?_, ?_⟩
  · rw [update_balls_def]
    simp only [List.map_cons, List.map_nil, hmt]
    simp only [collidePhase, hsw, collidePhase_singleton]
  · rw [update_collisions_def]
    simp only [List.map_cons, List.map_nil, hmt]
    simp only [collidePhase, hsw, collidePhase_singleton]
    rfl
  · rw [update_events_def]
    simp only [List.map_cons, List.map_nil, hmt]
    simp only [collidePhase, hsw, collidePhase_singleton]
    cases hev : (moveBall c).2 <;> simp [List.filterMap, hev]

/-- The contact tick of the two-ball system: the cue ball's move phase
lands it within the radius sum of the resting target while approaching it,
so the pair is recorded as collided and a single ball event is emitted at
the contact geometry of the moved state. -/
theorem update_contact_tick (c tb : Ball)
    (htbv : tb.vel = ⟨0, 0⟩) (htbs : tb.sideSpin = 0) (htbt : tb.topSpin = 0)
    (hc : vecDist (moveBall c).1.pos tb.pos < c.radius + tb.radius)
    (hrad : (moveBall c).1.radius = c.radius)
    (hid : (moveBall c).1.id = c.id)
    (hs : 0 < vecDot (vecSub (moveBall c).1.vel tb.vel)
      (vecNormalize (vecSub tb.pos (moveBall c).1.pos))) :
    (update [c, tb]).collisions = [c.id ++ "-" ++ tb.id] ∧
    (update [c, tb]).events = (moveBall c).2.toList ++
      [⟨CEKind.ball,
        vecDot (vecSub (moveBall c).1.vel tb.vel)
          (vecNormalize (vecSub tb.pos (moveBall c).1.pos)) / 8,
        vecAdd (moveBall c).1.pos
          (vecMul (vecNormalize (vecSub tb.pos (moveBall c).1.pos)) c.radius),
        some (c.id, tb.id), none⟩] := by
  have hmt := moveBall_rest_id tb htbv htbs htbt
  have hsw := sweep_pair_hit (moveBall c).1 tb (by rw [hrad]; exact hc) hs
  constructor
  · rw [update_collisions_def]
    simp only [List.map_cons, List.map_nil, hmt]
    simp only [collidePhase, hsw, collidePhase_singleton]
    simp [hid]
  · rw [update_events_def]
    simp only [List.map_cons, List.map_nil, hmt]
    simp only [collidePhase, hsw, collidePhase_singleton]
    cases hev : (moveBall c).2 <;> simp [List.filterMap, hev, hid, hrad]

/-- With a zero spin offset the cue impact transfers no spin. -/
theorem calculateCueImpact_spin_zero (dirv : Vec2) (pow : ℝ) :
    (calculateCueImpact dirv pow ⟨0, 0⟩).sideSpin = 0 ∧
    (calculateCueImpact dirv pow ⟨0, 0⟩).topSpin = 0 := by
  constructor <;> simp [calculateCueImpact]

/-- `N` free ticks of the real two-ball system: the cue ball follows the
free-flight kernel exactly, the resting target never moves, and the cue's
spins stay zero. -/
theorem iterUpdate_free_multi (c tb : Ball)
    (hctop : c.topSpin = 0) (hcside : c.sideSpin = 0)
    (htbv : tb.vel = ⟨0, 0⟩) (htbs : tb.sideSpin = 0) (htbt : tb.topSpin = 0) :
    ∀ N : ℕ,
      (∀ k, k < N →
        MIN_VELOCITY < vecMag (flightN k (c.pos, c.vel)).2 ∧
        c.radius ≤ (flightN (k + 1) (c.pos, c.vel)).1.x ∧
        (flightN (k + 1) (c.pos, c.vel)).1.x ≤ TABLE_WIDTH - c.radius ∧
        c.radius ≤ (flightN (k + 1) (c.pos, c.vel)).1.y ∧
        (flightN (k + 1) (c.pos, c.vel)).1.y ≤ TABLE_HEIGHT - c.radius ∧
        ¬ vecDist (flightN (k + 1) (c.pos, c.vel)).1 tb.pos <
          c.radius + tb.radius) →
      ∃ tr, iterUpdate N [c, tb] =
        [{ c with pos := (flightN N (c.pos, c.vel)).1,
                  vel := (flightN N (c.pos, c.vel)).2, trace := tr }, tb] := by
  intro N
  induction N with
  | zero =>
    intro _
    exact ⟨c.trace, rfl⟩
  | succ N ih =>
    intro h
    obtain ⟨tr, hN⟩ := ih fun k hk => h k (Nat.lt_succ_of_lt hk)
    obtain ⟨hfast, hx1, hx2, hy1, hy2, hnc⟩ := h N (Nat.lt_succ_self N)
    rw [iterUpdate, hN]
    set cN : Ball :=
      { c with pos := (flightN N (c.pos, c.vel)).1,
               vel := (flightN N (c.pos, c.vel)).2, trace := tr } with hcN
    have hpv : vecAdd cN.pos cN.vel = (flightN (N + 1) (c.pos, c.vel)).1 := rfl
    have hmc := moveBall_noWall cN (by exact hfast) (by exact hctop)
      (by rw [hpv]
          show ¬ (flightN (N + 1) (c.pos, c.vel)).1.x - c.radius < 0
          exact not_lt.2 (by linarith))
      (by rw [hpv]
          show ¬ TABLE_WIDTH < (flightN (N + 1) (c.pos, c.vel)).1.x + c.radius
          exact not_lt.2 (by linarith))
      (by rw [hpv]
          show ¬ (flightN (N + 1) (c.pos, c.vel)).1.y - c.radius < 0
          exact not_lt.2 (by linarith))
      (by rw [hpv]
          show ¬ TABLE_HEIGHT < (flightN (N + 1) (c.pos, c.vel)).1.y + c.radius
          exact not_lt.2 (by linarith))
    have hstep := update_free_tick cN tb htbv htbs htbt
      (by rw [hmc]
          show ¬ vecDist (vecAdd cN.pos cN.vel) tb.pos < cN.radius + tb.radius
          rw [hpv]
          exact hnc)
      (by rw [hmc])
    refine ⟨(moveBall cN).1.trace, ?_⟩
    rw [hstep.1]
    congr 1
    rw [hmc]
    apply Ball.ext <;> simp [hcN, hcside, hctop, flightN, flight]

/-- Full evaluation of `predict` for a zero-spin shot against a single
ball, contact-free through `N` steps and in contact at step `N + 1`: the
result is the first-contact record built from the free-flight state at
step `N + 1`, and the path contains only the start and free-flight
positions up to step `N` (before the contact branch extends it). -/
theorem predict_contact_eval (cb tb : Ball) (dirv : Vec2) (pow : ℝ) (N : ℕ)
    (v0 : Vec2) (hv0 : (calculateCueImpact dirv pow ⟨0, 0⟩).velocity = v0)
    (hN : N + 1 ≤ 400)
    (hcond : ∀ k, k < N → wallFree (flightN (k + 1) (cb.pos, v0)).1 ∧
      (¬ vecDist (flightN (k + 1) (cb.pos, v0)).1 tb.pos < BALL_RADIUS * 2) ∧
      ¬ vecMag (flightN (k + 1) (cb.pos, v0)).2 < MIN_VELOCITY)
    (hwN : wallFree (flightN (N + 1) (cb.pos, v0)).1)
    (hcN : vecDist (flightN (N + 1) (cb.pos, v0)).1 tb.pos < BALL_RADIUS * 2) :
    ∃ path', predict cb [tb] dirv pow ⟨0, 0⟩ =
      contactResult cb.mass tb
        ⟨(flightN (N + 1) (cb.pos, v0)).1, (flightN (N + 1) (cb.pos, v0)).2, 0, 0⟩
        path' ∧
      ∀ q ∈ path', q = cb.pos ∨ ∃ k, 1 ≤ k ∧ k ≤ N ∧ q = (flightN k (cb.pos, v0)).1 := by
  obtain ⟨hside, htop⟩ := calculateCueImpact_spin_zero dirv pow
  rw [predict, hv0, hside, htop]
  obtain ⟨path', heq, hmem⟩ := predGo_free_multi cb.mass [tb] N 400 0 cb.pos v0
    [cb.pos] (by omega)
    (fun k hk => ⟨(hcond k hk).1,
      fun o ho => by rw [List.mem_singleton.1 ho]; exact (hcond k hk).2.1,
      (hcond k hk).2.2⟩)
  rw [heq, show 400 - N = (400 - (N + 1)) + 1 by omega]
  rw [predGo_contact_step cb.mass tb (400 - (N + 1)) (0 + N)
    ⟨(flightN N (cb.pos, v0)).1, (flightN N (cb.pos, v0)).2, 0, 0⟩ path'
    (by show wallFree (vecAdd (flightN N (cb.pos, v0)).1 (flightN N (cb.pos, v0)).2)
        exact hwN)
    (by show vecDist (vecAdd (flightN N (cb.pos, v0)).1 (flightN N (cb.pos, v0)).2)
          tb.pos < BALL_RADIUS * 2
        exact hcN)]
  refine ⟨path', ?_, ?_⟩
  · congr 1
    simp [flightN, flight]
  · intro q hq
    rcases hmem q hq with hq' | hq'
    · exact Or.inl (List.mem_singleton.1 hq')
    · exact Or.inr hq'

/-! C1: prediction/reality parity. -/

/-- C1 amended: for a zero-spin-offset shot with standard radii, a resting
target and a cushion-free approach, prediction and execution advance the
cue ball through the *identical* free-flight states (`flightN`) and detect
first contact on the same tick `N + 1` at the same position `p1`, velocity
`v1` and collision normal `n`: the real run resolves exactly the
cue–target pair there and emits its ball event at `p1 + R·n` with
intensity `(v1·n)/8`, while the prediction reports cut thickness
`|normalize(v1)·n|` — the true contact geometry — and a ghost ball at the
tangency projection `target − 2R·n`, which is *not* the simulated contact
position `p1` (see the counterexample: they differ by up to one
integration step). -/
theorem C1_contact_parity (cb tb : Ball) (dirv : Vec2) (pow : ℝ) (N : ℕ)
    (v0 : Vec2) (hv0 : (calculateCueImpact dirv pow ⟨0, 0⟩).velocity = v0)
    (p1 v1 n : Vec2)
    (hp1 : p1 = (flightN (N + 1) (cb.pos, v0)).1)
    (hv1 : v1 = (flightN (N + 1) (cb.pos, v0)).2)
    (hn : n = vecNormalize (vecSub tb.pos p1))
    (hN : N + 1 ≤ 400)
    (hradc : cb.radius = BALL_RADIUS) (hradt : tb.radius = BALL_RADIUS)
    (htbv : tb.vel = ⟨0, 0⟩) (htbs : tb.sideSpin = 0) (htbt : tb.topSpin = 0)
    (hfast : ∀ k, k ≤ N → MIN_VELOCITY < vecMag (flightN k (cb.pos, v0)).2)
    (hwall : ∀ k, 1 ≤ k → k ≤ N + 1 → wallFree (flightN k (cb.pos, v0)).1)
    (hnc : ∀ k, 1 ≤ k → k ≤ N →
      ¬ vecDist (flightN k (cb.pos, v0)).1 tb.pos < BALL_RADIUS * 2)
    (hcN : vecDist p1 tb.pos < BALL_RADIUS * 2)
    (happ : 0 < vecDot v1 n) :
    (predict cb [tb] dirv pow ⟨0, 0⟩).ghostBall =
      some (vecSub tb.pos (vecMul n (BALL_RADIUS * 2))) ∧
    (predict cb [tb] dirv pow ⟨0, 0⟩).thickness =
      some |vecDot (vecNormalize v1) n| ∧
    (∃ tr, iterUpdate N [applyImpact cb dirv pow ⟨0, 0⟩, tb] =
      [{ applyImpact cb dirv pow ⟨0, 0⟩ with
           pos := (flightN N (cb.pos, v0)).1,
           vel := (flightN N (cb.pos, v0)).2, trace := tr }, tb]) ∧
    (update (iterUpdate N [applyImpact cb dirv pow ⟨0, 0⟩, tb])).collisions =
      [cb.id ++ "-" ++ tb.id] ∧
    (update (iterUpdate N [applyImpact cb dirv pow ⟨0, 0⟩, tb])).events =
      [⟨CEKind.ball, vecDot v1 n / 8, vecAdd p1 (vecMul n BALL_RADIUS),
        some (cb.id, tb.id), none⟩] := by
  obtain ⟨hside, htop⟩ := calculateCueImpact_spin_zero dirv pow
  have hR2 : BALL_RADIUS + BALL_RADIUS = BALL_RADIUS * 2 := by ring
  -- the predictive side
  obtain ⟨path', hpred, _⟩ := predict_contact_eval cb tb dirv pow N v0 hv0 hN
    (fun k hk => ⟨hwall (k + 1) (by omega) (by omega),
      hnc (k + 1) (by omega) (by omega),
      not_lt.2 (le_of_lt (hfast (k + 1) (by omega)))⟩)
    (hwall (N + 1) (by omega) (by omega)) (by rw [← hp1]; exact hcN)
  have hghost : (predict cb [tb] dirv pow ⟨0, 0⟩).ghostBall =
      some (vecSub tb.pos (vecMul n (BALL_RADIUS * 2))) := by
    rw [hpred]
    simp only [contactResult]
    rw [hn, hp1]
  have hthick : (predict cb [tb] dirv pow ⟨0, 0⟩).thickness =
      some |vecDot (vecNormalize v1) n| := by
    rw [hpred]
    simp only [contactResult]
    rw [hn, hp1, hv1]
  -- the real side
  set cA : Ball := applyImpact cb dirv pow ⟨0, 0⟩ with hcA
  have hcApos : cA.pos = cb.pos := rfl
  have hcAvel : cA.vel = v0 := by
    rw [hcA, applyImpact]
    exact hv0
  have hcAtop : cA.topSpin = 0 := by
    rw [hcA, applyImpact]
    exact htop
  have hcAside : cA.sideSpin = 0 := by
    rw [hcA, applyImpact]
    exact hside
  have hcArad : cA.radius = cb.radius := rfl
  have hcAid : cA.id = cb.id := rfl
  have hsum : cA.radius + tb.radius = BALL_RADIUS * 2 := by
    rw [hcArad, hradc, hradt]
    exact hR2
  have hreal := iterUpdate_free_multi cA tb hcAtop hcAside htbv htbs htbt N
    (by intro k hk
        rw [hcApos, hcAvel, hcArad, hradc]
        obtain ⟨w1, w2, w3, w4⟩ := hwall (k + 1) (by omega) (by omega)
        refine ⟨hfast k (by omega), w1, w2, w3, w4, ?_⟩
        have hbr : BALL_RADIUS + tb.radius = BALL_RADIUS * 2 := by
          rw [hradt]
          exact hR2
        rw [hbr]
        exact hnc (k + 1) (by omega) (by omega))
  obtain ⟨tr, hiter⟩ := hreal
  have hiter' : iterUpdate N [cA, tb] =
      [{ cA with pos := (flightN N (cb.pos, v0)).1,
                 vel := (flightN N (cb.pos, v0)).2, trace := tr }, tb] := by
    rw [hiter, hcApos, hcAvel]
  set cN : Ball :=
    { cA with pos := (flightN N (cb.pos, v0)).1,
              vel := (flightN N (cb.pos, v0)).2, trace := tr } with hcNDef
  have hcNpv : vecAdd cN.pos cN.vel = p1 := by
    rw [hp1]
    rfl
  have hcNvf : vecMul cN.vel FRICTION = v1 := by
    rw [hv1]
    rfl
  obtain ⟨w1, w2, w3, w4⟩ := hwall (N + 1) (by omega) (by omega)
  have hmc := moveBall_noWall cN
    (by show MIN_VELOCITY < vecMag (flightN N (cb.pos, v0)).2
        exact hfast N (le_refl N))
    (by show cA.topSpin = 0; exact hcAtop)
    (by rw [hcNpv, hp1]
        show ¬ (flightN (N + 1) (cb.pos, v0)).1.x - cb.radius < 0
        rw [hradc]
        exact not_lt.2 (by linarith))
    (by rw [hcNpv, hp1]
        show ¬ TABLE_WIDTH < (flightN (N + 1) (cb.pos, v0)).1.x + cb.radius
        rw [hradc]
        exact not_lt.2 (by linarith))
    (by rw [hcNpv, hp1]
        show ¬ (flightN (N + 1) (cb.pos, v0)).1.y - cb.radius < 0
        rw [hradc]
        exact not_lt.2 (by linarith))
    (by rw [hcNpv, hp1]
        show ¬ TABLE_HEIGHT < (flightN (N + 1) (cb.pos, v0)).1.y + cb.radius
        rw [hradc]
        exact not_lt.2 (by linarith))
  have hmovedpos : (moveBall cN).1.pos = p1 := by
    rw [hmc]
    exact hcNpv
  have hmovedvel : (moveBall cN).1.vel = v1 := by
    rw [hmc]
    exact hcNvf
  have hmovedid : (moveBall cN).1.id = cN.id := by
    rw [hmc]
  have hmovedrad : (moveBall cN).1.radius = cN.radius := by
    rw [hmc]
  have hsubvel : vecSub (moveBall cN).1.vel tb.vel = v1 := by
    rw [hmovedvel, htbv, vecSub_zero]
  have hnormal : vecNormalize (vecSub tb.pos (moveBall cN).1.pos) = n := by
    rw [hmovedpos, hn]
  have hcontact := update_contact_tick cN tb htbv htbs htbt
    (by rw [hmovedpos]
        show vecDist p1 tb.pos < cA.radius + tb.radius
        rw [hsum]
        exact hcN)
    hmovedrad hmovedid
    (by rw [hsubvel, hnormal]; exact happ)
  refine ⟨hghost, hthick, ⟨tr, hiter'⟩, ?_, ?_⟩
  · rw [hiter', hcontact.1]
    rw [show cN.id = cb.id from rfl]
  · rw [hiter', hcontact.2, hsubvel, hnormal, hmovedpos]
    rw [hmc]
    simp only [Option.toList]
    rw [show cN.id = cb.id from rfl, show cN.radius = cb.radius from rfl, hradc]
    rfl

/-- For a pure +x aim with no spin offset the cue impact launches the ball
along +x at the given power. -/
theorem calculateCueImpact_xdir (pow : ℝ) :
    (calculateCueImpact ⟨1, 0⟩ pow ⟨0, 0⟩).velocity = ⟨pow, 0⟩ := by
  have hu : vecNormalize ⟨1, 0⟩ = ⟨1, 0⟩ := vecNormalize_xPos 1 0 one_pos rfl
  have hne : ¬((⟨1, 0⟩ : Vec2).x = 0 ∧ (⟨1, 0⟩ : Vec2).y = 0) := by norm_num
  rw [calculateCueImpact]
  simp only [if_neg hne, hu]
  have h0 : (-(⟨0, 0⟩ : Vec2).x * 0.12 : ℝ) = 0 := by norm_num
  rw [h0, Real.cos_zero, Real.sin_zero]
  norm_num [vecMul, Real.sqrt_zero, Vec2.mk.injEq]

def w1cue : Ball := ⟨"white", ⟨200, 200⟩, ⟨0, 0⟩, 12, 1, 0, 0, []⟩
def w1tgt : Ball := ⟨"red", ⟨230, 200⟩, ⟨0, 0⟩, 12, 1, 0, 0, []⟩

theorem C1_contact_parity_witness :
    (predict w1cue [w1tgt] ⟨1, 0⟩ 15 ⟨0, 0⟩).ghostBall =
      some (vecSub w1tgt.pos (vecMul ⟨1, 0⟩ (BALL_RADIUS * 2))) ∧
    (predict w1cue [w1tgt] ⟨1, 0⟩ 15 ⟨0, 0⟩).thickness =
      some |vecDot (vecNormalize ⟨14.82, 0⟩) ⟨1, 0⟩| ∧
    (∃ tr, iterUpdate 0 [applyImpact w1cue ⟨1, 0⟩ 15 ⟨0, 0⟩, w1tgt] =
      [{ applyImpact w1cue ⟨1, 0⟩ 15 ⟨0, 0⟩ with
           pos := (flightN 0 (w1cue.pos, ⟨15, 0⟩)).1,
           vel := (flightN 0 (w1cue.pos, ⟨15, 0⟩)).2, trace := tr }, w1tgt]) ∧
    (update (iterUpdate 0 [applyImpact w1cue ⟨1, 0⟩ 15 ⟨0, 0⟩, w1tgt])).collisions =
      [w1cue.id ++ "-" ++ w1tgt.id] ∧
    (update (iterUpdate 0 [applyImpact w1cue ⟨1, 0⟩ 15 ⟨0, 0⟩, w1tgt])).events =
      [⟨CEKind.ball, vecDot ⟨14.82, 0⟩ ⟨1, 0⟩ / 8,
        vecAdd ⟨215, 200⟩ (vecMul ⟨1, 0⟩ BALL_RADIUS),
        some (w1cue.id, w1tgt.id), none⟩] := by
  have hv0 : (calculateCueImpact ⟨1, 0⟩ 15 ⟨0, 0⟩).velocity = ⟨15, 0⟩ :=
    calculateCueImpact_xdir 15
  have hp1 : (⟨215, 200⟩ : Vec2) = (flightN 1 (w1cue.pos, ⟨15, 0⟩)).1 := by
    norm_num [flightN, flight, vecAdd, w1cue]
  have hv1 : (⟨14.82, 0⟩ : Vec2) = (flightN 1 (w1cue.pos, ⟨15, 0⟩)).2 := by
    norm_num [flightN, flight, vecMul, FRICTION, w1cue]
  have hn : (⟨1, 0⟩ : Vec2) = vecNormalize (vecSub w1tgt.pos ⟨215, 200⟩) := by
    have hsub : vecSub w1tgt.pos ⟨215, 200⟩ = ⟨15, 0⟩ := by
      norm_num [vecSub, w1tgt]
    rw [hsub, vecNormalize_xPos 15 0 (by norm_num) rfl]
  have hfast : ∀ k, k ≤ 0 → MIN_VELOCITY < vecMag (flightN k (w1cue.pos, ⟨15, 0⟩)).2 := by
    intro k hk
    have hk0 : k = 0 := Nat.le_zero.1 hk
    subst hk0
    rw [show (flightN 0 (w1cue.pos, ⟨15, 0⟩)).2 = ⟨15, 0⟩ from rfl,
      vecMag_horiz 15 0 rfl, MIN_VELOCITY]
    norm_num
  have hwall : ∀ k, 1 ≤ k → k ≤ 0 + 1 → wallFree (flightN k (w1cue.pos, ⟨15, 0⟩)).1 := by
    intro k h1 h2
    have hk1 : k = 1 := by omega
    subst hk1
    rw [← hp1]
    refine ⟨by norm_num [BALL_RADIUS], by norm_num [BALL_RADIUS, TABLE_WIDTH], ?_, ?_⟩ <;>
      norm_num [BALL_RADIUS, TABLE_HEIGHT, TABLE_WIDTH]
  have hnc : ∀ k, 1 ≤ k → k ≤ 0 →
      ¬ vecDist (flightN k (w1cue.pos, ⟨15, 0⟩)).1 w1tgt.pos < BALL_RADIUS * 2 := by
    intro k h1 h2
    omega
  have hcN : vecDist (⟨215, 200⟩ : Vec2) w1tgt.pos < BALL_RADIUS * 2 := by
    rw [show w1tgt.pos = ⟨230, 200⟩ from rfl, vecDist_horiz,
      show (215 : ℝ) - 230 = -15 by norm_num, abs_neg,
      abs_of_nonneg (by norm_num : (0 : ℝ) ≤ 15), BALL_RADIUS]
    norm_num
  have happ : 0 < vecDot ⟨14.82, 0⟩ ⟨1, 0⟩ := by norm_num [vecDot]
  exact C1_contact_parity w1cue w1tgt ⟨1, 0⟩ 15 0 ⟨15, 0⟩ hv0 ⟨215, 200⟩
    ⟨14.82, 0⟩ ⟨1, 0⟩ hp1 hv1 hn (by norm_num) rfl rfl rfl rfl rfl
    hfast hwall hnc hcN happ

def x1cue : Ball := ⟨"wx", ⟨300, 200⟩, ⟨0, 0⟩, 12, 1, 0, 0, []⟩
def x1tgt : Ball := ⟨"rx", ⟨330, 200⟩, ⟨0, 0⟩, 12, 1, 0, 0, []⟩

/-- C1 counterexample: executing the identical zero-spin parameters, the
real loop detects first contact on its first tick with the cue ball's
center at (315, 200) — that is the position at the instant the collision
is recorded — while `predict` reports the ghost ball at (306, 200), the
tangency projection.  The two differ by 9 length units, far beyond any
floating tolerance, so prediction and execution do not produce the same
first-contact ghost-ball position. -/
theorem C1_ghost_mismatch_cex :
    (predict x1cue [x1tgt] ⟨1, 0⟩ 15 ⟨0, 0⟩).ghostBall = some ⟨306, 200⟩ ∧
    (moveBall (applyImpact x1cue ⟨1, 0⟩ 15 ⟨0, 0⟩)).1.pos = ⟨315, 200⟩ ∧
    (update [applyImpact x1cue ⟨1, 0⟩ 15 ⟨0, 0⟩, x1tgt]).collisions =
      ["wx-rx"] ∧
    (⟨306, 200⟩ : Vec2) ≠ ⟨315, 200⟩ := by
  have hv0 : (calculateCueImpact ⟨1, 0⟩ 15 ⟨0, 0⟩).velocity = ⟨15, 0⟩ :=
    calculateCueImpact_xdir 15
  have hp1 : (flightN 1 (x1cue.pos, ⟨15, 0⟩)).1 = ⟨315, 200⟩ := by
    norm_num [flightN, flight, vecAdd, x1cue]
  have hv1 : (flightN 1 (x1cue.pos, ⟨15, 0⟩)).2 = ⟨14.82, 0⟩ := by
    norm_num [flightN, flight, vecMul, FRICTION, x1cue]
  have hnrm : vecNormalize (vecSub x1tgt.pos ⟨315, 200⟩) = ⟨1, 0⟩ := by
    have hsub : vecSub x1tgt.pos ⟨315, 200⟩ = ⟨15, 0⟩ := by
      norm_num [vecSub, x1tgt]
    rw [hsub]
    exact vecNormalize_xPos 15 0 (by norm_num) rfl
  have hwf : wallFree (flightN 1 (x1cue.pos, ⟨15, 0⟩)).1 := by
    rw [hp1]
    refine ⟨?_, ?_, ?_, ?_⟩ <;>
      norm_num [BALL_RADIUS, TABLE_WIDTH, TABLE_HEIGHT]
  have hcd : vecDist (flightN 1 (x1cue.pos, ⟨15, 0⟩)).1 x1tgt.pos <
      BALL_RADIUS * 2 := by
    rw [hp1, show x1tgt.pos = ⟨330, 200⟩ from rfl, vecDist_horiz,
      show (315 : ℝ) - 330 = -15 by norm_num, abs_neg,
      abs_of_nonneg (by norm_num : (0 : ℝ) ≤ 15), BALL_RADIUS]
    norm_num
  have hfast : MIN_VELOCITY < vecMag (applyImpact x1cue ⟨1, 0⟩ 15 ⟨0, 0⟩).vel := by
    rw [show (applyImpact x1cue ⟨1, 0⟩ 15 ⟨0, 0⟩).vel =
      (calculateCueImpact ⟨1, 0⟩ 15 ⟨0, 0⟩).velocity from rfl, hv0,
      vecMag_horiz 15 0 rfl, MIN_VELOCITY]
    norm_num
  have hpv : vecAdd (applyImpact x1cue ⟨1, 0⟩ 15 ⟨0, 0⟩).pos
      (applyImpact x1cue ⟨1, 0⟩ 15 ⟨0, 0⟩).vel = ⟨315, 200⟩ := by
    rw [show (applyImpact x1cue ⟨1, 0⟩ 15 ⟨0, 0⟩).vel =
      (calculateCueImpact ⟨1, 0⟩ 15 ⟨0, 0⟩).velocity from rfl, hv0]
    norm_num [vecAdd, x1cue, applyImpact]
  have htop : (applyImpact x1cue ⟨1, 0⟩ 15 ⟨0, 0⟩).topSpin = 0 := by
    rw [show (applyImpact x1cue ⟨1, 0⟩ 15 ⟨0, 0⟩).topSpin =
      (calculateCueImpact ⟨1, 0⟩ 15 ⟨0, 0⟩).topSpin from rfl]
    exact (calculateCueImpact_spin_zero ⟨1, 0⟩ 15).2
  have hmc := moveBall_noWall (applyImpact x1cue ⟨1, 0⟩ 15 ⟨0, 0⟩) hfast htop
    (by rw [hpv]; norm_num [applyImpact, x1cue])
    (by rw [hpv]; norm_num [applyImpact, x1cue, TABLE_WIDTH])
    (by rw [hpv]; norm_num [applyImpact, x1cue])
    (by rw [hpv]; norm_num [applyImpact, x1cue, TABLE_HEIGHT])
  have hmovepos : (moveBall (applyImpact x1cue ⟨1, 0⟩ 15 ⟨0, 0⟩)).1.pos =
      ⟨315, 200⟩ := by
    rw [hmc]
    exact hpv
  have hmovevel : (moveBall (applyImpact x1cue ⟨1, 0⟩ 15 ⟨0, 0⟩)).1.vel =
      ⟨14.82, 0⟩ := by
    rw [hmc]
    show vecMul (applyImpact x1cue ⟨1, 0⟩ 15 ⟨0, 0⟩).vel FRICTION = _
    rw [show (applyImpact x1cue ⟨1, 0⟩ 15 ⟨0, 0⟩).vel =
      (calculateCueImpact ⟨1, 0⟩ 15 ⟨0, 0⟩).velocity from rfl, hv0]
    norm_num [vecMul, FRICTION]
  refine ⟨?_, hmovepos, ?_, ?_⟩
  · obtain ⟨path', hpred, _⟩ := predict_contact_eval x1cue x1tgt ⟨1, 0⟩ 15 0
      ⟨15, 0⟩ hv0 (by norm_num) (fun k hk => absurd hk (Nat.not_lt_zero k))
      hwf hcd
    rw [hpred]
    simp only [contactResult]
    rw [hp1, hnrm]
    norm_num [vecSub, vecMul, BALL_RADIUS, x1tgt, Vec2.mk.injEq]
  · have hcontact := update_contact_tick (applyImpact x1cue ⟨1, 0⟩ 15 ⟨0, 0⟩)
      x1tgt rfl rfl rfl
      (by rw [hmovepos]
          show vecDist (⟨315, 200⟩ : Vec2) x1tgt.pos < x1cue.radius + x1tgt.radius
          rw [show x1tgt.pos = ⟨330, 200⟩ from rfl, vecDist_horiz,
            show (315 : ℝ) - 330 = -15 by norm_num, abs_neg,
            abs_of_nonneg (by norm_num : (0 : ℝ) ≤ 15)]
          norm_num [x1cue, x1tgt])
      (by rw [hmc]) (by rw [hmc])
      (by rw [hmovevel, show x1tgt.vel = ⟨0, 0⟩ from rfl, vecSub_zero,
            hmovepos, hnrm]
          norm_num [vecDot])
    rw [hcontact.1]
    rfl
  · norm_num [Vec2.mk.injEq]

/-! C7: the concrete straight-shot scenario. -/

def c7cue : Ball := ⟨"c7w", ⟨200, 200⟩, ⟨0, 0⟩, 12, 1, 0, 0, []⟩
def c7tgt : Ball := ⟨"c7r", ⟨400, 200⟩, ⟨0, 0⟩, 12, 1, 0, 0, []⟩

/-- Closed form of the straight free flight from (200,200) at speed 15. -/
theorem c7_flight (k : ℕ) : flightN k (c7cue.pos, ⟨15, 0⟩) =
    (⟨1450 - 1250 * FRICTION ^ k, 200⟩, ⟨15 * FRICTION ^ k, 0⟩) := by
  induction k with
  | zero =>
    norm_num [flightN, c7cue, Prod.ext_iff, Vec2.mk.injEq]
  | succ k ih =>
    rw [flightN, ih, flight]
    simp only [vecAdd, vecMul, Prod.mk.injEq, Vec2.mk.injEq, FRICTION]
    refine ⟨⟨by ring, by ring⟩, by ring, by ring⟩

theorem c7_q12 : (1074 : ℝ) / 1250 ≤ FRICTION ^ 12 := by
  norm_num [FRICTION]

theorem c7_q13_hi : FRICTION ^ 13 < (1074 : ℝ) / 1250 := by
  norm_num [FRICTION]

theorem c7_q13_lo : (1050 : ℝ) / 1250 < FRICTION ^ 13 := by
  norm_num [FRICTION]

theorem c7_qmono {m n : ℕ} (h : m ≤ n) : FRICTION ^ n ≤ FRICTION ^ m :=
  pow_le_pow_of_le_one (by norm_num [FRICTION]) (by norm_num [FRICTION]) h

/-- Entries of the struck-ball path below the starting length are never
touched by the forward loop (it only appends). -/
theorem targetGo_get_preserved : ∀ (fuel j : ℕ) (tPos tVel : Vec2)
    (acc : List Vec2) (idx : ℕ), idx < acc.length →
    (targetGo fuel j tPos tVel acc).get? idx = acc.get? idx := by
  intro fuel
  induction fuel with
  | zero =>
    intro j tPos tVel acc idx _
    rw [targetGo]
  | succ fuel ih =>
    intro j tPos tVel acc idx hidx
    rw [targetGo]
    by_cases hj : j % 10 = 0
    · rw [if_pos hj, ih _ _ _ _ idx (by simp; omega)]
      exact List.get?_append hidx
    · rw [if_neg hj, ih _ _ _ _ idx hidx]

theorem vecAdd_y (a b : Vec2) : (vecAdd a b).y = a.y + b.y := rfl

theorem vecMul_y (a : Vec2) (s : ℝ) : (vecMul a s).y = a.y * s := rfl

/-- The deflected-path loop keeps every appended waypoint on the line
y = c when the normal and velocity have no y component. -/
theorem deflGo_y_const (n : Vec2) (top c : ℝ) (hny : n.y = 0) :
    ∀ (fuel k : ℕ) (pos vel : Vec2) (path : List Vec2), vel.y = 0 →
      pos.y = c → (∀ pt ∈ path, pt.y = c) →
      ∀ pt ∈ deflGo n top fuel k pos vel path, pt.y = c := by
  intro fuel
  induction fuel with
  | zero =>
    intro k pos vel path _ _ hpath
    rw [deflGo]
    exact hpath
  | succ fuel ih =>
    intro k pos vel path hvel hpos hpath
    rw [deflGo]
    have hv1 : (vecAdd vel (vecMul n (-(top * 0.08 * ((k : ℝ) / 150))))).y = 0 := by
      rw [vecAdd_y, vecMul_y, hvel, hny]
      ring
    have hp1 : (vecAdd pos (vecAdd vel (vecMul n
        (-(top * 0.08 * ((k : ℝ) / 150)))))).y = c := by
      rw [vecAdd_y, hpos, hv1]
      ring
    have hv2 : (vecMul (vecAdd vel (vecMul n
        (-(top * 0.08 * ((k : ℝ) / 150))))) FRICTION).y = 0 := by
      rw [vecMul_y, hv1]
      ring
    have hpath1 : ∀ pt ∈ (if k % 10 = 0 then
        path ++ [vecAdd pos (vecAdd vel (vecMul n
          (-(top * 0.08 * ((k : ℝ) / 150)))))] else path), pt.y = c := by
      split_ifs
      · intro pt hpt
        rcases List.mem_append.1 hpt with h | h
        · exact hpath pt h
        · rw [List.mem_singleton.1 h]
          exact hp1
      · exact hpath
    by_cases hb : vecMag (vecMul (vecAdd vel (vecMul n
        (-(top * 0.08 * ((k : ℝ) / 150))))) FRICTION) < MIN_VELOCITY
    · rw [if_pos hb]
      exact hpath1
    · rw [if_neg hb]
      exact ih (k + 1) _ _ _ hv2 hp1 hpath1

theorem vecSub_y (a b : Vec2) : (vecSub a b).y = a.y - b.y := rfl

theorem vecAdd_x (a b : Vec2) : (vecAdd a b).x = a.x + b.x := rfl

theorem vecMul_x (a : Vec2) (s : ℝ) : (vecMul a s).x = a.x * s := rfl

/-- C7: cue ball at (200,200), aim (1,0), power 15, zero spin offset,
target at (400,200), radii 12 on the 800×400 table: `predict` reports the
ghost ball exactly at (376, 200) = (400 − 24, 200), cut thickness exactly
1 (full hit), cut angle exactly 0°, a target path starting at (400,200)
whose next waypoint moves in +x, and a straight cue path (every waypoint
on the line y = 200).  First contact is detected on iteration 13, at
x = 1450 − 1250·0.988¹³ ≈ 381.6. -/
theorem C7_straight_shot :
    (predict c7cue [c7tgt] ⟨1, 0⟩ 15 ⟨0, 0⟩).ghostBall = some ⟨376, 200⟩ ∧
    (predict c7cue [c7tgt] ⟨1, 0⟩ 15 ⟨0, 0⟩).thickness = some 1 ∧
    (predict c7cue [c7tgt] ⟨1, 0⟩ 15 ⟨0, 0⟩).angle = some 0 ∧
    (∃ L : List Vec2,
      (predict c7cue [c7tgt] ⟨1, 0⟩ 15 ⟨0, 0⟩).targetPath = some L ∧
      L.get? 0 = some ⟨400, 200⟩ ∧
      ∃ p2 : Vec2, L.get? 1 = some p2 ∧ 400 < p2.x ∧ p2.y = 200) ∧
    ∀ pt ∈ (predict c7cue [c7tgt] ⟨1, 0⟩ 15 ⟨0, 0⟩).path, pt.y = 200 := by
  have hv0 : (calculateCueImpact ⟨1, 0⟩ 15 ⟨0, 0⟩).velocity = ⟨15, 0⟩ :=
    calculateCueImpact_xdir 15
  have hq0 : (0 : ℝ) < FRICTION := by norm_num [FRICTION]
  have hqle1 : ∀ k : ℕ, FRICTION ^ k ≤ 1 :=
    fun k => pow_le_one₀ (le_of_lt hq0) (by norm_num [FRICTION])
  have hcond : ∀ k, k < 12 →
      wallFree (flightN (k + 1) (c7cue.pos, ⟨15, 0⟩)).1 ∧
      (¬ vecDist (flightN (k + 1) (c7cue.pos, ⟨15, 0⟩)).1 c7tgt.pos <
        BALL_RADIUS * 2) ∧
      ¬ vecMag (flightN (k + 1) (c7cue.pos, ⟨15, 0⟩)).2 < MIN_VELOCITY := by
    intro k hk
    rw [c7_flight (k + 1)]
    have h12le : FRICTION ^ 12 ≤ FRICTION ^ (k + 1) := c7_qmono (by omega)
    have hub : FRICTION ^ (k + 1) ≤ 1 := hqle1 _
    have hlb : (1074 : ℝ) / 1250 ≤ FRICTION ^ (k + 1) := le_trans c7_q12 h12le
    refine ⟨⟨?_, ?_, ?_, ?_⟩, ?_, ?_⟩
    · show BALL_RADIUS ≤ 1450 - 1250 * FRICTION ^ (k + 1)
      rw [BALL_RADIUS]
      nlinarith
    · show 1450 - 1250 * FRICTION ^ (k + 1) ≤ TABLE_WIDTH - BALL_RADIUS
      rw [BALL_RADIUS, TABLE_WIDTH]
      nlinarith
    · show BALL_RADIUS ≤ (200 : ℝ)
      rw [BALL_RADIUS]
      norm_num
    · show (200 : ℝ) ≤ TABLE_HEIGHT - BALL_RADIUS
      rw [BALL_RADIUS, TABLE_HEIGHT]
      norm_num
    · rw [show c7tgt.pos = ⟨400, 200⟩ from rfl, vecDist_horiz, abs_sub_comm,
        abs_of_nonneg (by nlinarith : (0 : ℝ) ≤ 400 - (1450 - 1250 * FRICTION ^ (k + 1)))]
      rw [BALL_RADIUS]
      exact not_lt.2 (by nlinarith)
    · rw [vecMag_horiz _ 0 rfl, abs_of_pos (by positivity), MIN_VELOCITY]
      exact not_lt.2 (by nlinarith)
  have hwN : wallFree (flightN 13 (c7cue.pos, ⟨15, 0⟩)).1 := by
    rw [c7_flight 13]
    have h1 := c7_q13_lo
    have h2 := c7_q13_hi
    refine ⟨?_, ?_, ?_, ?_⟩
    · show BALL_RADIUS ≤ 1450 - 1250 * FRICTION ^ 13
      rw [BALL_RADIUS]
      nlinarith
    · show 1450 - 1250 * FRICTION ^ 13 ≤ TABLE_WIDTH - BALL_RADIUS
      rw [BALL_RADIUS, TABLE_WIDTH]
      nlinarith
    · show BALL_RADIUS ≤ (200 : ℝ)
      rw [BALL_RADIUS]
      norm_num
    · show (200 : ℝ) ≤ TABLE_HEIGHT - BALL_RADIUS
      rw [BALL_RADIUS, TABLE_HEIGHT]
      norm_num
  have hcN : vecDist (flightN 13 (c7cue.pos, ⟨15, 0⟩)).1 c7tgt.pos <
      BALL_RADIUS * 2 := by
    rw [c7_flight 13]
    have h1 := c7_q13_lo
    have h2 := c7_q13_hi
    rw [show c7tgt.pos = ⟨400, 200⟩ from rfl, vecDist_horiz, abs_sub_comm,
      abs_of_nonneg (by nlinarith : (0 : ℝ) ≤ 400 - (1450 - 1250 * FRICTION ^ 13))]
    rw [BALL_RADIUS]
    nlinarith
  obtain ⟨path', hpred, hmem⟩ := predict_contact_eval c7cue c7tgt ⟨1, 0⟩ 15 12
    ⟨15, 0⟩ hv0 (by norm_num) hcond hwN hcN
  have hp13 : (flightN 13 (c7cue.pos, ⟨15, 0⟩)).1 =
      ⟨1450 - 1250 * FRICTION ^ 13, 200⟩ := by rw [c7_flight]
  have hv13 : (flightN 13 (c7cue.pos, ⟨15, 0⟩)).2 = ⟨15 * FRICTION ^ 13, 0⟩ := by
    rw [c7_flight]
  have hdpos : (0 : ℝ) < 1250 * FRICTION ^ 13 - 1050 := by nlinarith [c7_q13_lo]
  have hsub : vecSub c7tgt.pos ⟨1450 - 1250 * FRICTION ^ 13, 200⟩ =
      ⟨1250 * FRICTION ^ 13 - 1050, 0⟩ := by
    rw [show c7tgt.pos = ⟨400, 200⟩ from rfl]
    simp only [vecSub, Vec2.mk.injEq]
    constructor <;> ring
  have hn : vecNormalize (vecSub c7tgt.pos ⟨1450 - 1250 * FRICTION ^ 13, 200⟩) =
      ⟨1, 0⟩ := by
    rw [hsub]
    exact vecNormalize_xPos _ 0 hdpos rfl
  have hnv : vecNormalize ⟨15 * FRICTION ^ 13, 0⟩ = ⟨1, 0⟩ :=
    vecNormalize_xPos _ 0 (by positivity) rfl
  have hdot1 : vecDot (⟨1, 0⟩ : Vec2) ⟨1, 0⟩ = 1 := by norm_num [vecDot]
  have hspd : vecDot (⟨15 * FRICTION ^ 13, 0⟩ : Vec2) ⟨1, 0⟩ = 15 * FRICTION ^ 13 := by
    norm_num [vecDot]
  rw [hpred]
  simp only [contactResult, hp13, hv13, hn, hnv, hspd, hdot1]
  refine ⟨?_, ?_, ?_, ?_, ?_⟩
  · rw [show c7tgt.pos = ⟨400, 200⟩ from rfl]
    norm_num [vecSub, vecMul, BALL_RADIUS, Vec2.mk.injEq]
  · norm_num
  · rw [abs_one, Real.arccos_one]
    norm_num
  · rw [if_pos (by positivity : (0 : ℝ) < 15 * FRICTION ^ 13)]
    have hex : (0 : ℝ) < 2 * (15 * FRICTION ^ 13) / (c7cue.mass + c7tgt.mass) *
        BALL_BOUNCE := by
      rw [show c7cue.mass = (1 : ℝ) from rfl, show c7tgt.mass = (1 : ℝ) from rfl,
        BALL_BOUNCE]
      positivity
    refine ⟨_, rfl, ?_, ?_⟩
    · rw [targetGo_get_preserved 60 0 c7tgt.pos _ [c7tgt.pos] 0 (by norm_num)]
      rw [show c7tgt.pos = ⟨400, 200⟩ from rfl]
      rfl
    · refine ⟨vecAdd c7tgt.pos (vecMul ⟨1, 0⟩
        (2 * (15 * FRICTION ^ 13) / (c7cue.mass + c7tgt.mass) * BALL_BOUNCE)), ?_, ?_, ?_⟩
      · rw [show (60 : ℕ) = 59 + 1 from rfl, targetGo]
        rw [if_pos (by norm_num : (0 : ℕ) % 10 = 0)]
        rw [targetGo_get_preserved 59 1 _ _ _ 1 (by simp)]
        simp
      · rw [vecAdd_x, vecMul_x, show c7tgt.pos.x = (400 : ℝ) from rfl,
          show ((⟨1, 0⟩ : Vec2)).x = (1 : ℝ) from rfl]
        linarith
      · rw [vecAdd_y, vecMul_y, show c7tgt.pos.y = (200 : ℝ) from rfl,
          show ((⟨1, 0⟩ : Vec2)).y = (0 : ℝ) from rfl]
        ring
  · apply deflGo_y_const ⟨1, 0⟩ 0 200 rfl 150 0
    · rw [vecSub_y, vecMul_y]
      simp
    · rfl
    · intro pt hpt
      rcases hmem pt hpt with hpt' | ⟨k, _, _, hpt'⟩
      · rw [hpt']
        rfl
      · rw [hpt', c7_flight k]

/-- The distance between two points is at least their vertical gap. -/
theorem vecDist_ge_dy (p q : Vec2) : |p.y - q.y| ≤ vecDist p q := by
  rw [vecDist, vecSub]
  have h1 : vecMag ⟨p.x - q.x, p.y - q.y⟩ =
      Real.sqrt ((p.x - q.x) * (p.x - q.x) + (p.y - q.y) * (p.y - q.y)) := rfl
  have h2 : |p.y - q.y| = Real.sqrt ((p.y - q.y) * (p.y - q.y)) := by
    rw [show (p.y - q.y) * (p.y - q.y) = (p.y - q.y) ^ 2 by ring,
      Real.sqrt_sq_eq_abs]
  rw [h1, h2]
  apply Real.sqrt_le_sqrt
  nlinarith [mul_self_nonneg (p.x - q.x)]

/-- A predictive step away from the horizontal cushions keeps a level,
side-spin-free state level: the y position is integrated with zero y
velocity, the y cushion block does not fire at y = 100, and the x cushion
block's side-spin deflection of the y velocity vanishes with zero side
spin. -/
theorem predFreeStep_y100 (st : SimState) (hy : st.pos.y = 100)
    (hvy : st.vel.y = 0) (hs : st.side = 0) :
    (predFreeStep st).1.pos.y = 100 ∧ (predFreeStep st).1.vel.y = 0 ∧
      (predFreeStep st).1.side = 0 := by
  have hp1 : (vecAdd st.pos st.vel).y = 100 := by
    rw [vecAdd_y, hy, hvy]
    ring
  have hY : ¬((vecAdd st.pos st.vel).y < BALL_RADIUS ∨
      TABLE_HEIGHT - BALL_RADIUS < (vecAdd st.pos st.vel).y) := by
    rw [hp1, BALL_RADIUS, TABLE_HEIGHT]
    push_neg
    norm_num
  refine ⟨?_, ?_, ?_⟩
  · simp only [predFreeStep]
    exact hp1
  · simp only [predFreeStep, if_neg hY]
    by_cases hX : (vecAdd st.pos st.vel).x < BALL_RADIUS ∨
        TABLE_WIDTH - BALL_RADIUS < (vecAdd st.pos st.vel).x
    · rw [if_pos hX]
      simp only [vecMul_y, hvy, hs]
      ring
    · rw [if_neg hX, vecMul_y, hvy]
      ring
  · simp only [predFreeStep]
    rw [hs]
    ring

def w8cue : Ball := ⟨"cw", ⟨100, 100⟩, ⟨0, 0⟩, 12, 1, 0, 0, []⟩
def w8other : Ball := ⟨"ow", ⟨100, 300⟩, ⟨0, 0⟩, 12, 1, 0, 0, []⟩

/-- Along any level, side-spin-free run at y = 100, the ball 200 units
above is never approached within two radii, for any remaining fuel. -/
theorem contactFree_y100 : ∀ (fuel : ℕ) (st : SimState),
    st.pos.y = 100 → st.vel.y = 0 → st.side = 0 →
    ContactFree [w8other] fuel st := by
  intro fuel
  induction fuel with
  | zero => intro st _ _ _; trivial
  | succ fuel ih =>
    intro st hy hvy hs
    obtain ⟨hy', hvy', hs'⟩ := predFreeStep_y100 st hy hvy hs
    refine ⟨?_, ?_⟩
    · intro o ho
      rw [List.mem_singleton] at ho
      subst ho
      have hgap : |(predFreeStep st).1.pos.y - w8other.pos.y| = 200 := by
        rw [hy', show w8other.pos.y = (300 : ℝ) from rfl]
        rw [show (100 : ℝ) - 300 = -200 by norm_num, abs_neg,
          abs_of_nonneg (by norm_num : (0 : ℝ) ≤ 200)]
      have hge := vecDist_ge_dy (predFreeStep st).1.pos w8other.pos
      rw [hgap] at hge
      rw [BALL_RADIUS]
      push_neg
      linarith
    · exact Or.inr (ih (predFreeStep st).1 hy' hvy' hs')

theorem C8_no_contact_partial_witness :
    ContactFree [w8other] 400
      ⟨w8cue.pos, (calculateCueImpact ⟨1, 0⟩ 5 ⟨0, 0⟩).velocity,
       (calculateCueImpact ⟨1, 0⟩ 5 ⟨0, 0⟩).sideSpin,
       (calculateCueImpact ⟨1, 0⟩ 5 ⟨0, 0⟩).topSpin⟩ ∧
    (predict w8cue [w8other] ⟨1, 0⟩ 5 ⟨0, 0⟩).ghostBall = none ∧
    (predict w8cue [w8other] ⟨1, 0⟩ 5 ⟨0, 0⟩).targetPath = none ∧
    (predict w8cue [w8other] ⟨1, 0⟩ 5 ⟨0, 0⟩).thickness = none ∧
    (predict w8cue [w8other] ⟨1, 0⟩ 5 ⟨0, 0⟩).angle = none := by
  have h : ContactFree [w8other] 400
      ⟨w8cue.pos, (calculateCueImpact ⟨1, 0⟩ 5 ⟨0, 0⟩).velocity,
       (calculateCueImpact ⟨1, 0⟩ 5 ⟨0, 0⟩).sideSpin,
       (calculateCueImpact ⟨1, 0⟩ 5 ⟨0, 0⟩).topSpin⟩ := by
    apply contactFree_y100
    · rfl
    · rw [show (⟨w8cue.pos, (calculateCueImpact ⟨1, 0⟩ 5 ⟨0, 0⟩).velocity,
          (calculateCueImpact ⟨1, 0⟩ 5 ⟨0, 0⟩).sideSpin,
          (calculateCueImpact ⟨1, 0⟩ 5 ⟨0, 0⟩).topSpin⟩ : SimState).vel =
        (calculateCueImpact ⟨1, 0⟩ 5 ⟨0, 0⟩).velocity from rfl,
        calculateCueImpact_xdir]
    · exact (calculateCueImpact_spin_zero ⟨1, 0⟩ 5).1
  obtain ⟨h1, h2, h3, h4⟩ := C8_no_contact_partial w8cue [w8other] ⟨1, 0⟩ 5 ⟨0, 0⟩ h
  exact ⟨h, h1, h2, h3, h4⟩

end Billiards
